import Mathlib

/-!
Verification of the reciprocity-gated submission/points/leveling engine of the
tiktok-like-bot repository, as a shallow embedding in Lean 4.

The embedding follows `src/database.py` (the SQLite-backed `Database` class)
and the command handlers of `bot.py`.  Conventions:

* Rows of the five tables (`users`, `videos`, `likes`, `settings`,
  `spam_protection`) are Lean structures; a table is a `List` of rows kept in
  insertion order (SQLite rowid order).  `user_id` is the primary key of
  `users`, `(user_id, command)` of `spam_protection`.
* Timestamps are seconds as `Nat` (the code stores `"%Y-%m-%d %H:%M:%S"`
  strings, which compare lexicographically exactly as the instants do);
  spam-protection timestamps are `Int` because the admin "block user" action
  stores a timestamp 100 years in the future.
* `points` is `Int`: the admin add-points action accepts negative deltas.
  Python's `//` is floor division, embedded as `Int.fdiv`.
* Settings are a record of the five numeric values.  They are seeded at
  initialization and only ever written through the admin handlers, which parse
  integers and enforce non-negativity (and `level_threshold >= 1`), so the
  values are `Nat`.
* A SQL `UPDATE`/`SELECT` on a missing row is a no-op / `None`; where the
  Python code would then raise (subscripting `None`), the embedding returns
  the state as committed so far, matching sqlite3 rollback of the open
  transaction plus the bot's top-level error handler.
-/

namespace TTB

structure User where
  user_id : Nat
  username : String
  likes_given : Nat
  videos_submitted : Nat
  points : Int
  level : Int
  is_admin : Bool
  joined_date : Nat
  last_action : Nat
deriving Repr, DecidableEq

structure Video where
  id : Nat
  user_id : Nat
  tiktok_url : String
  submission_time : Nat
  status : String
  likes_count : Nat
deriving Repr, DecidableEq

structure Like where
  user_id : Nat
  video_id : Nat
  like_time : Nat
deriving Repr, DecidableEq

structure Settings where
  likes_required : Nat
  points_per_like : Nat
  points_per_submission : Nat
  level_threshold : Nat
  spam_timeout : Nat
deriving Repr, DecidableEq

structure SpamRec where
  user_id : Nat
  command : String
  timestamp : Int
deriving Repr, DecidableEq

structure DB where
  users : List User
  videos : List Video
  likes : List Like
  settings : Settings
  spam : List SpamRec
  next_video_id : Nat
deriving Repr, DecidableEq

/-- Default settings seeded by `Database.init_db`. -/
def defaultSettings : Settings :=
  { likes_required := 3, points_per_like := 5, points_per_submission := 10,
    level_threshold := 50, spam_timeout := 5 }

/-- The freshly initialized store: empty tables, default settings, first
AUTOINCREMENT video id 1. -/
def initDB : DB :=
  { users := [], videos := [], likes := [], settings := defaultSettings,
    spam := [], next_video_id := 1 }

/-- The `SELECT * FROM users WHERE user_id = ?` of `Database.get_user`. -/
def getUser (db : DB) (uid : Nat) : Option User :=
  db.users.find? (fun u => u.user_id == uid)

/-- A SQL `UPDATE users ... WHERE user_id = ?`: rewrite every matching row
(`user_id` is the primary key, so at most one row matches in well-formed
states). -/
def updateUser (db : DB) (uid : Nat) (f : User → User) : DB :=
  { db with users := db.users.map (fun u => if u.user_id == uid then f u else u) }

/-- The `INSERT OR IGNORE` of `Database.add_user`. -/
def add_user (db : DB) (uid : Nat) (uname : String) (now : Nat) : DB :=
  if (getUser db uid).isSome then db
  else { db with users := db.users ++
    [{ user_id := uid, username := uname, likes_given := 0,
       videos_submitted := 0, points := 0, level := 1, is_admin := false,
       joined_date := now, last_action := now }] }

/-- `Database.update_user_last_action`. -/
def update_user_last_action (db : DB) (uid : Nat) (now : Nat) : DB :=
  updateUser db uid (fun u => { u with last_action := now })

/-- `Database.set_admin_status`. -/
def set_admin_status (db : DB) (uid : Nat) (b : Bool) : DB :=
  updateUser db uid (fun u => { u with is_admin := b })

/-- `Database.is_admin`: `result and result['is_admin'] == 1` (falsy when the
row is missing). -/
def dbIsAdmin (db : DB) (uid : Nat) : Bool :=
  match getUser db uid with
  | none => false
  | some u => u.is_admin

/-- The raw `UPDATE users SET points = points + ? WHERE user_id = ?` used by
the bonus-award code in `bot.py` and by the admin add-points handler. -/
def addPoints (db : DB) (uid : Nat) (delta : Int) : DB :=
  updateUser db uid (fun u => { u with points := u.points + delta })

/-- `Database.increment_user_likes`: add `points_per_like`, bump
`likes_given`, recompute the level and raise it if the recomputed value is
strictly larger.  Returns the level-up flag and the new state; `none` models
the `TypeError` raised when the user row is missing (the open transaction is
then rolled back, and nothing of this call persists). -/
def increment_user_likes (db : DB) (uid : Nat) : Option (Bool × DB) :=
  let points_per_like : Int := db.settings.points_per_like
  let db1 := updateUser db uid
    (fun u => { u with likes_given := u.likes_given + 1,
                       points := u.points + points_per_like })
  match getUser db1 uid with
  | none => none
  | some u =>
    let level_threshold : Int := db.settings.level_threshold
    let new_level : Int := u.points.fdiv level_threshold + 1
    if new_level > u.level then
      some (true, updateUser db1 uid (fun w => { w with level := new_level }))
    else
      some (false, db1)

/-- `Database.increment_user_submissions`: same shape with
`points_per_submission` and `videos_submitted`. -/
def increment_user_submissions (db : DB) (uid : Nat) : Option (Bool × DB) :=
  let points_per_submission : Int := db.settings.points_per_submission
  let db1 := updateUser db uid
    (fun u => { u with videos_submitted := u.videos_submitted + 1,
                       points := u.points + points_per_submission })
  match getUser db1 uid with
  | none => none
  | some u =>
    let level_threshold : Int := db.settings.level_threshold
    let new_level : Int := u.points.fdiv level_threshold + 1
    if new_level > u.level then
      some (true, updateUser db1 uid (fun w => { w with level := new_level }))
    else
      some (false, db1)

/-- `Database.add_video`: insert with the next AUTOINCREMENT id, status
`pending`, zero `likes_count`; returns the new id. -/
def add_video (db : DB) (uid : Nat) (url : String) (now : Nat) : Nat × DB :=
  let vid := db.next_video_id
  (vid, { db with
    videos := db.videos ++
      [{ id := vid, user_id := uid, tiktok_url := url, submission_time := now,
         status := "pending", likes_count := 0 }],
    next_video_id := vid + 1 })

/-- `Database.get_video`. -/
def get_video (db : DB) (vid : Nat) : Option Video :=
  db.videos.find? (fun v => v.id == vid)

/-- `Database.delete_video`: delete the likes referencing the video, then the
video row. -/
def delete_video (db : DB) (vid : Nat) : DB :=
  { db with
    likes := db.likes.filter (fun l => !(l.video_id == vid)),
    videos := db.videos.filter (fun v => !(v.id == vid)) }

/-- `Database.has_liked_video`. -/
def has_liked_video (db : DB) (uid : Nat) (vid : Nat) : Bool :=
  db.likes.any (fun l => l.user_id == uid && l.video_id == vid)

/-- `Database.add_like`: re-check the duplicate, then insert the like row and
bump the video's denormalized `likes_count`.  Returns whether the like was
inserted. -/
def add_like (db : DB) (uid : Nat) (vid : Nat) (now : Nat) : Bool × DB :=
  if has_liked_video db uid vid then (false, db)
  else
    (true, { db with
      likes := db.likes ++ [{ user_id := uid, video_id := vid, like_time := now }],
      videos := db.videos.map
        (fun v => if v.id == vid then { v with likes_count := v.likes_count + 1 } else v) })

/-- `Database.can_submit_video`: `user and user['likes_given'] >= likes_required`.
When the user row is missing, Python returns `None` (falsy) without touching
the subscript, so the embedding returns `false`. -/
def can_submit_video (db : DB) (uid : Nat) : Bool :=
  match getUser db uid with
  | none => false
  | some u => u.likes_given ≥ db.settings.likes_required

/-- Lookup in `spam_protection` by its `(user_id, command)` primary key. -/
def spamLookup (db : DB) (uid : Nat) (cmd : String) : Option Int :=
  (db.spam.find? (fun r => r.user_id == uid && r.command == cmd)).map
    (fun r => r.timestamp)

/-- `Database.record_command`: `INSERT OR REPLACE` keyed on
`(user_id, command)`. -/
def record_command (db : DB) (uid : Nat) (cmd : String) (ts : Int) : DB :=
  { db with spam :=
      db.spam.filter (fun r => !(r.user_id == uid && r.command == cmd)) ++
      [{ user_id := uid, command := cmd, timestamp := ts }] }

/-- `Database.can_execute_command`: allowed when no prior record exists,
otherwise allowed iff strictly more than `spam_timeout` seconds elapsed. -/
def can_execute_command (db : DB) (uid : Nat) (cmd : String) (now : Nat) : Bool :=
  match spamLookup db uid cmd with
  | none => true
  | some ts => decide ((now : Int) - ts > (db.settings.spam_timeout : Int))

/-- The `check_spam` helper of `bot.py`.  `ADMIN_IDS` members and ledger
admins bypass the gate entirely (nothing is recorded); otherwise an allowed
invocation records itself and a disallowed one leaves the store unchanged.
Returns `(blocked, state)` — `check_spam` returns `True` when the command is
to be dropped. -/
def checkSpam (adminIds : List Nat) (db : DB) (uid : Nat) (cmd : String)
    (now : Nat) : Bool × DB :=
  if adminIds.contains uid || dbIsAdmin db uid then (false, db)
  else if can_execute_command db uid cmd now then
    (false, record_command db uid cmd (now : Int))
  else (true, db)

/-- Count of the user's likes inside the trailing 24-hour window — the
`SELECT COUNT(*) FROM likes WHERE user_id = ? AND like_time > datetime('now','-1 day')`
of the streak check in `cmd_like`. -/
def recentLikeCount (likes : List Like) (uid : Nat) (now : Nat) : Nat :=
  (likes.filter
    (fun l => l.user_id == uid && decide (now - 86400 < l.like_time))).length

/-- Outcome data reported by `cmd_like` on a successful like: the level-up
flag from `increment_user_likes`, the level-up bonus points awarded (0 when no
level-up), and the streak bonus points awarded (0 when the rolling count is
not a positive multiple of 5). -/
structure LikeOk where
  leveled_up : Bool
  levelBonus : Int
  streakBonus : Nat
deriving Repr, DecidableEq

/-- Result of the body of `cmd_like` (after the spam gate). -/
inductive LikeResult where
  | notFound
  | selfLike
  | alreadyLiked
  | dbError
  | ok (r : LikeOk)
deriving Repr, DecidableEq

/-- The level-up bonus block shared verbatim by `cmd_like` and `cmd_submit`
(bot.py): when `increment_user_*` reported a level-up, re-read the user and,
if the (new) level exceeds 1, add `level * 10` points.  Returns the bonus
awarded and the new state. -/
def levelBonusStage (db : DB) (uid : Nat) (leveled : Bool) : Int × DB :=
  if leveled then
    match getUser db uid with
    | none => (0, db)
    | some ud =>
      if ud.level > 1 then (ud.level * 10, addPoints db uid (ud.level * 10))
      else (0, db)
  else (0, db)

/-- The streak block of `cmd_like` (bot.py): recount the user's likes inside
the trailing 24-hour window and, when the count is a positive multiple of 5,
add `count / 5 * 15` points.  Returns the bonus awarded and the new state. -/
def streakStage (db : DB) (uid : Nat) (now : Nat) : Nat × DB :=
  let streak := recentLikeCount db.likes uid now
  if streak > 0 && streak % 5 == 0 then
    (streak / 5 * 15, addPoints db uid ((streak / 5 * 15 : Nat) : Int))
  else (0, db)

/-- The body of `cmd_like` (bot.py, after `check_spam`): update
`last_action`; reject when the video is missing, owned by the liker, or
already liked; otherwise insert the like, run `increment_user_likes`, award
the level-up bonus when the new level exceeds 1, and finally recompute the
trailing-24h like count and award the streak bonus when it is a positive
multiple of 5. -/
def likeBody (db : DB) (uid : Nat) (vid : Nat) (now : Nat) : LikeResult × DB :=
  let db0 := update_user_last_action db uid now
  match get_video db0 vid with
  | none => (.notFound, db0)
  | some video =>
    if video.user_id == uid then (.selfLike, db0)
    else if has_liked_video db0 uid vid then (.alreadyLiked, db0)
    else
      let db1 := (add_like db0 uid vid now).2
      match increment_user_likes db1 uid with
      | none => (.dbError, db1)
      | some (leveled, db2) =>
        let bonusStep := levelBonusStage db2 uid leveled
        let streakStep := streakStage bonusStep.2 uid now
        (.ok { leveled_up := leveled, levelBonus := bonusStep.1,
               streakBonus := streakStep.1 },
         streakStep.2)

/-- Result of the body of `cmd_submit` (after the spam gate). -/
inductive SubmitResult where
  | needMore (shortfall : Int)
  | invalidUrl
  | dbError
  | added (vid : Nat) (leveled : Bool) (levelBonus : Int)
deriving Repr, DecidableEq

/-- The body of `cmd_submit` (bot.py, after `check_spam`): update
`last_action`; when `can_submit_video` is falsy, reject and report the
shortfall `likes_required - likes_given`; otherwise, when the URL matches the
TikTok pattern (`urlOk` stands for `is_valid_tiktok_url(url)`, a transport
regex out of the core), insert the video, run `increment_user_submissions`
and award the level-up bonus when the new level exceeds 1. -/
def submitBody (db : DB) (uid : Nat) (url : String) (urlOk : Bool)
    (now : Nat) : SubmitResult × DB :=
  let db0 := update_user_last_action db uid now
  if can_submit_video db0 uid then
    if urlOk then
      let added := add_video db0 uid url now
      let vid := added.1
      let db1 := added.2
      match increment_user_submissions db1 uid with
      | none => (.dbError, db1)
      | some (leveled, db2) =>
        let bonusStep := levelBonusStage db2 uid leveled
        (.added vid leveled bonusStep.1, bonusStep.2)
    else (.invalidUrl, db0)
  else
    match getUser db0 uid with
    | none => (.dbError, db0)
    | some u =>
      (.needMore ((db0.settings.likes_required : Int) - (u.likes_given : Int)), db0)

/-- The `ORDER BY v.submission_time ASC` comparison of `Database.get_queue`
(timestamps are stored as sortable text, so SQL string order is time
order). -/
def byTime (a b : Video) : Prop := a.submission_time ≤ b.submission_time

instance : DecidableRel byTime := fun a b => Nat.decLe a.submission_time b.submission_time

instance : IsTotal Video byTime := ⟨fun a b => Nat.le_total a.submission_time b.submission_time⟩

instance : IsTrans Video byTime := ⟨fun _ _ _ => Nat.le_trans⟩

/-- The queue projection of `Database.get_queue` before `LIMIT`/`OFFSET`:
videos joined with their submitters (an inner join, dropping videos whose
user row is missing — users are never deleted, so nothing is dropped in
reachable states), ordered by ascending `submission_time`. -/
def queueSorted (db : DB) : List Video :=
  List.insertionSort byTime
    (db.videos.filter (fun v => (getUser db v.user_id).isSome))

/-- `Database.get_queue(limit, offset)`: the `LIMIT ? OFFSET ?` slice of the
ordered join. -/
def get_queue (db : DB) (limit offset : Nat) : List Video :=
  ((queueSorted db).drop offset).take limit

/-- The admin add-points handler `process_admin_points`: add the (possibly
negative) delta, then recompute the level and raise it if strictly larger. -/
def adminAddPoints (db : DB) (uid : Nat) (delta : Int) : DB :=
  let db1 := addPoints db uid delta
  match getUser db1 uid with
  | none => db1
  | some u =>
    let level_threshold : Int := db1.settings.level_threshold
    let new_level : Int := u.points.fdiv level_threshold + 1
    if new_level > u.level then
      updateUser db1 uid (fun w => { w with level := new_level })
    else db1

/-- The admin set-level handler `process_admin_level`: reject a level below
1, otherwise overwrite the level with the given value. -/
def adminSetLevel (db : DB) (uid : Nat) (lvl : Int) : DB :=
  if lvl < 1 then db
  else updateUser db uid (fun u => { u with level := lvl })

/-- The admin reset-likes action: `UPDATE users SET likes_given = 0`. -/
def adminResetLikes (db : DB) (uid : Nat) : DB :=
  updateUser db uid (fun u => { u with likes_given := 0 })

/-- The admin clear-queue action: `DELETE FROM likes; DELETE FROM videos`. -/
def adminClearQueue (db : DB) : DB :=
  { db with likes := [], videos := [] }

/-- The admin block-user action: upsert a spam-protection row 100 years in
the future for each common command (`datetime('now', '+100 years')`). -/
def adminBan (db : DB) (uid : Nat) (now : Nat) : DB :=
  ["start", "submit", "like", "queue", "status", "leaderboard"].foldl
    (fun d cmd => record_command d uid cmd ((now : Int) + 3153600000)) db

/-- The admin settings handlers of `process_admin_action`: each parses an
integer and rejects a negative value (`level_threshold` additionally rejects
0) before writing the setting. -/
def adminSetLikesRequired (db : DB) (n : Int) : DB :=
  if n < 0 then db
  else { db with settings := { db.settings with likes_required := n.toNat } }

def adminSetPointsPerLike (db : DB) (n : Int) : DB :=
  if n < 0 then db
  else { db with settings := { db.settings with points_per_like := n.toNat } }

def adminSetPointsPerSubmission (db : DB) (n : Int) : DB :=
  if n < 0 then db
  else { db with settings := { db.settings with points_per_submission := n.toNat } }

def adminSetLevelThreshold (db : DB) (n : Int) : DB :=
  if n < 1 then db
  else { db with settings := { db.settings with level_threshold := n.toNat } }

def adminSetSpamTimeout (db : DB) (n : Int) : DB :=
  if n < 0 then db
  else { db with settings := { db.settings with spam_timeout := n.toNat } }

/-- The state-mutating operations the bot can perform on the store, one per
handler in `bot.py`.  `opTouch` covers the read-only commands (`/queue`,
`/status`, `/leaderboard`), which still pass the spam gate and update
`last_action`. -/
inductive Op where
  | opStart (uid : Nat) (uname : String) (now : Nat)
  | opLike (uid vid now : Nat)
  | opSubmit (uid : Nat) (url : String) (urlOk : Bool) (now : Nat)
  | opTouch (uid : Nat) (cmd : String) (now : Nat)
  | opDeleteVideo (vid : Nat)
  | opClearQueue
  | opAddAdmin (uid : Nat)
  | opResetLikes (uid : Nat)
  | opAddPoints (uid : Nat) (delta : Int)
  | opSetLevel (uid : Nat) (lvl : Int)
  | opBan (uid now : Nat)
  | opSetLikesRequired (n : Int)
  | opSetPointsPerLike (n : Int)
  | opSetPointsPerSubmission (n : Int)
  | opSetLevelThreshold (n : Int)
  | opSetSpamTimeout (n : Int)
deriving Repr, DecidableEq

/-- The `cmd_start` handler: spam gate, `add_user` (INSERT OR IGNORE),
`last_action`, and promotion to ledger admin when the id is in `ADMIN_IDS`. -/
def cmdStart (adminIds : List Nat) (db : DB) (uid : Nat) (uname : String)
    (now : Nat) : DB :=
  let gate := checkSpam adminIds db uid "start" now
  if gate.1 then gate.2
  else
    let db1 := add_user gate.2 uid uname now
    let db2 := update_user_last_action db1 uid now
    if adminIds.contains uid && !(dbIsAdmin db2 uid) then
      set_admin_status db2 uid true
    else db2

/-- One step of the system: dispatch an operation the way the corresponding
`bot.py` handler does.  The admin handlers are modelled without the
`is_admin` authorization check on the acting admin (the check only restricts
who may trigger them, not their effect on the store). -/
def step (adminIds : List Nat) (db : DB) : Op → DB
  | .opStart uid uname now => cmdStart adminIds db uid uname now
  | .opLike uid vid now =>
    let gate := checkSpam adminIds db uid "like" now
    if gate.1 then gate.2 else (likeBody gate.2 uid vid now).2
  | .opSubmit uid url urlOk now =>
    let gate := checkSpam adminIds db uid "submit" now
    if gate.1 then gate.2 else (submitBody gate.2 uid url urlOk now).2
  | .opTouch uid cmd now =>
    let gate := checkSpam adminIds db uid cmd now
    if gate.1 then gate.2 else update_user_last_action gate.2 uid now
  | .opDeleteVideo vid =>
    if (get_video db vid).isSome then delete_video db vid else db
  | .opClearQueue => adminClearQueue db
  | .opAddAdmin uid => set_admin_status db uid true
  | .opResetLikes uid => adminResetLikes db uid
  | .opAddPoints uid delta => adminAddPoints db uid delta
  | .opSetLevel uid lvl => adminSetLevel db uid lvl
  | .opBan uid now => adminBan db uid now
  | .opSetLikesRequired n => adminSetLikesRequired db n
  | .opSetPointsPerLike n => adminSetPointsPerLike db n
  | .opSetPointsPerSubmission n => adminSetPointsPerSubmission db n
  | .opSetLevelThreshold n => adminSetLevelThreshold db n
  | .opSetSpamTimeout n => adminSetSpamTimeout db n

/-- Run a list of operations from a state. -/
def applyOps (adminIds : List Nat) (db : DB) : List Op → DB
  | [] => db
  | op :: rest => applyOps adminIds (step adminIds db op) rest

/-! Basic lemmas about the row-level operations. -/

theorem find?_map_user_id (l : List User) (uid u : Nat) (f : User → User)
    (hf : ∀ w, (f w).user_id = w.user_id) :
    (l.map (fun w => if w.user_id == uid then f w else w)).find?
        (fun w => w.user_id == u)
      = (l.find? (fun w => w.user_id == u)).map
          (fun w => if w.user_id == uid then f w else w) := by
  rw [List.find?_map]
  have hp : ((fun w : User => w.user_id == u) ∘
      (fun w => if w.user_id == uid then f w else w))
      = (fun w : User => w.user_id == u) := by
    funext w
    by_cases h : (w.user_id == uid) = true <;> simp [Function.comp, h, hf]
  rw [hp]

theorem getUser_updateUser (db : DB) (uid : Nat) (f : User → User)
    (hf : ∀ w, (f w).user_id = w.user_id) (u : Nat) :
    getUser (updateUser db uid f) u
      = (getUser db u).map (fun w => if w.user_id == uid then f w else w) := by
  unfold getUser updateUser
  exact find?_map_user_id db.users uid u f hf

theorem getUser_user_id (db : DB) (u : Nat) (w : User)
    (h : getUser db u = some w) : w.user_id = u := by
  have := List.find?_some h
  simpa using this

theorem getUser_updateUser_self (db : DB) (u : Nat) (f : User → User)
    (hf : ∀ w, (f w).user_id = w.user_id) (w : User)
    (h : getUser db u = some w) :
    getUser (updateUser db u f) u = some (f w) := by
  rw [getUser_updateUser db u f hf u, h]
  have := getUser_user_id db u w h
  simp [this]

theorem getUser_updateUser_other (db : DB) (uid : Nat) (f : User → User)
    (hf : ∀ w, (f w).user_id = w.user_id) (u : Nat) (h : u ≠ uid) :
    getUser (updateUser db uid f) u = getUser db u := by
  rw [getUser_updateUser db uid f hf u]
  cases hw : getUser db u with
  | none => rfl
  | some w =>
    have := getUser_user_id db u w hw
    have : w.user_id ≠ uid := by rw [this]; exact h
    simp [this]

theorem getUser_updateUser_none (db : DB) (uid : Nat) (f : User → User)
    (hf : ∀ w, (f w).user_id = w.user_id) (u : Nat)
    (h : getUser db u = none) :
    getUser (updateUser db uid f) u = none := by
  rw [getUser_updateUser db uid f hf u, h]; rfl

@[simp] theorem updateUser_videos (db : DB) (uid : Nat) (f : User → User) :
    (updateUser db uid f).videos = db.videos := rfl

@[simp] theorem updateUser_likes (db : DB) (uid : Nat) (f : User → User) :
    (updateUser db uid f).likes = db.likes := rfl

@[simp] theorem updateUser_settings (db : DB) (uid : Nat) (f : User → User) :
    (updateUser db uid f).settings = db.settings := rfl

@[simp] theorem updateUser_spam (db : DB) (uid : Nat) (f : User → User) :
    (updateUser db uid f).spam = db.spam := rfl

@[simp] theorem updateUser_next (db : DB) (uid : Nat) (f : User → User) :
    (updateUser db uid f).next_video_id = db.next_video_id := rfl

@[simp] theorem get_video_updateUser (db : DB) (uid : Nat) (f : User → User)
    (vid : Nat) : get_video (updateUser db uid f) vid = get_video db vid := rfl

@[simp] theorem has_liked_updateUser (db : DB) (uid : Nat) (f : User → User)
    (u vid : Nat) :
    has_liked_video (updateUser db uid f) u vid = has_liked_video db u vid := rfl

theorem getUser_users_eq {db1 db2 : DB} (h : db1.users = db2.users) (u : Nat) :
    getUser db1 u = getUser db2 u := by
  unfold getUser; rw [h]

@[simp] theorem add_like_users (db : DB) (u v t : Nat) :
    ((add_like db u v t).2).users = db.users := by
  unfold add_like; split <;> rfl

@[simp] theorem add_like_settings (db : DB) (u v t : Nat) :
    ((add_like db u v t).2).settings = db.settings := by
  unfold add_like; split <;> rfl

@[simp] theorem add_like_spam (db : DB) (u v t : Nat) :
    ((add_like db u v t).2).spam = db.spam := by
  unfold add_like; split <;> rfl

@[simp] theorem add_like_next (db : DB) (u v t : Nat) :
    ((add_like db u v t).2).next_video_id = db.next_video_id := by
  unfold add_like; split <;> rfl

theorem add_like_likes_of_new (db : DB) (u v t : Nat)
    (h : has_liked_video db u v = false) :
    ((add_like db u v t).2).likes
      = db.likes ++ [{ user_id := u, video_id := v, like_time := t }] := by
  unfold add_like; rw [h]; rfl

theorem add_like_videos_of_new (db : DB) (u v t : Nat)
    (h : has_liked_video db u v = false) :
    ((add_like db u v t).2).videos
      = db.videos.map
          (fun w => if w.id == v then { w with likes_count := w.likes_count + 1 } else w) := by
  unfold add_like; rw [h]; rfl

/-! Spec-side formulas, written from the specification's words, for the
refinement comparisons below. -/

/-- The spec's leveling formula `floor(points / level_threshold) + 1`. -/
def specLevel (points : Int) (thr : Nat) : Int :=
  points.fdiv (thr : Int) + 1

/-- Modelled from the spec: the streak-bonus rule — "whenever that count is a
positive multiple of 5, award `(count / 5) * 15` bonus points", and nothing
otherwise. -/
def specStreakBonus (c : Nat) : Nat :=
  if 0 < c ∧ c % 5 = 0 then c / 5 * 15 else 0

/-! Characterizations of the scoring mutations. -/

theorem increment_user_likes_spec (db : DB) (uid : Nat) (usr : User)
    (hu : getUser db uid = some usr) :
    ∃ db2,
      increment_user_likes db uid
        = some (decide (specLevel (usr.points + (db.settings.points_per_like : Int))
                  db.settings.level_threshold > usr.level), db2) ∧
      db2.videos = db.videos ∧ db2.likes = db.likes ∧
      db2.settings = db.settings ∧ db2.spam = db.spam ∧
      db2.next_video_id = db.next_video_id ∧
      getUser db2 uid = some
        { usr with
          likes_given := usr.likes_given + 1,
          points := usr.points + (db.settings.points_per_like : Int),
          level := if specLevel (usr.points + (db.settings.points_per_like : Int))
                      db.settings.level_threshold > usr.level
                   then specLevel (usr.points + (db.settings.points_per_like : Int))
                      db.settings.level_threshold
                   else usr.level } ∧
      (∀ u, u ≠ uid → getUser db2 u = getUser db u) := by
  have hf1 : ∀ w : User,
      ((fun u : User => { u with likes_given := u.likes_given + 1, points := u.points + (db.settings.points_per_like : Int) }) w).user_id
        = w.user_id := fun w => rfl
  have hg : getUser (updateUser db uid
      (fun u : User => { u with likes_given := u.likes_given + 1, points := u.points + (db.settings.points_per_like : Int) })) uid
      = some { usr with likes_given := usr.likes_given + 1, points := usr.points + (db.settings.points_per_like : Int) } :=
    getUser_updateUser_self db uid _ hf1 usr hu
  have hf2 : ∀ w : User,
      ((fun w : User => { w with level := (usr.points + (db.settings.points_per_like : Int)).fdiv (db.settings.level_threshold : Int) + 1 }) w).user_id
        = w.user_id := fun w => rfl
  by_cases hlev : specLevel (usr.points + (db.settings.points_per_like : Int))
      db.settings.level_threshold > usr.level
  · refine ⟨updateUser (updateUser db uid
        (fun u : User => { u with likes_given := u.likes_given + 1, points := u.points + (db.settings.points_per_like : Int) })) uid
        (fun w : User => { w with level := (usr.points + (db.settings.points_per_like : Int)).fdiv (db.settings.level_threshold : Int) + 1 }),
        ?_, rfl, rfl, rfl, rfl, rfl, ?_, ?_⟩
    · simp only [increment_user_likes]
      rw [hg]
      simp only [specLevel] at hlev
      simp [specLevel, hlev]
    · have h2 := getUser_updateUser_self _ uid _ hf2 _ hg
      rw [h2]
      simp only [specLevel] at hlev ⊢
      simp [hlev]
    · intro u hne
      have h1 := getUser_updateUser_other db uid _ hf1 u hne
      rw [getUser_updateUser_other _ uid _ hf2 u hne, h1]
  · refine ⟨updateUser db uid
        (fun u : User => { u with likes_given := u.likes_given + 1, points := u.points + (db.settings.points_per_like : Int) }),
        ?_, rfl, rfl, rfl, rfl, rfl, ?_, ?_⟩
    · simp only [increment_user_likes]
      rw [hg]
      simp only [specLevel] at hlev
      simp [specLevel, hlev]
    · rw [hg]
      simp only [specLevel] at hlev ⊢
      simp [hlev]
    · intro u hne
      exact getUser_updateUser_other db uid _ hf1 u hne

theorem increment_user_submissions_spec (db : DB) (uid : Nat) (usr : User)
    (hu : getUser db uid = some usr) :
    ∃ db2,
      increment_user_submissions db uid
        = some (decide (specLevel (usr.points + (db.settings.points_per_submission : Int))
                  db.settings.level_threshold > usr.level), db2) ∧
      db2.videos = db.videos ∧ db2.likes = db.likes ∧
      db2.settings = db.settings ∧ db2.spam = db.spam ∧
      db2.next_video_id = db.next_video_id ∧
      getUser db2 uid = some
        { usr with
          videos_submitted := usr.videos_submitted + 1,
          points := usr.points + (db.settings.points_per_submission : Int),
          level := if specLevel (usr.points + (db.settings.points_per_submission : Int))
                      db.settings.level_threshold > usr.level
                   then specLevel (usr.points + (db.settings.points_per_submission : Int))
                      db.settings.level_threshold
                   else usr.level } ∧
      (∀ u, u ≠ uid → getUser db2 u = getUser db u) := by
  have hf1 : ∀ w : User,
      ((fun u : User => { u with videos_submitted := u.videos_submitted + 1, points := u.points + (db.settings.points_per_submission : Int) }) w).user_id
        = w.user_id := fun w => rfl
  have hg : getUser (updateUser db uid
      (fun u : User => { u with videos_submitted := u.videos_submitted + 1, points := u.points + (db.settings.points_per_submission : Int) })) uid
      = some { usr with videos_submitted := usr.videos_submitted + 1, points := usr.points + (db.settings.points_per_submission : Int) } :=
    getUser_updateUser_self db uid _ hf1 usr hu
  have hf2 : ∀ w : User,
      ((fun w : User => { w with level := (usr.points + (db.settings.points_per_submission : Int)).fdiv (db.settings.level_threshold : Int) + 1 }) w).user_id
        = w.user_id := fun w => rfl
  by_cases hlev : specLevel (usr.points + (db.settings.points_per_submission : Int))
      db.settings.level_threshold > usr.level
  · refine ⟨updateUser (updateUser db uid
        (fun u : User => { u with videos_submitted := u.videos_submitted + 1, points := u.points + (db.settings.points_per_submission : Int) })) uid
        (fun w : User => { w with level := (usr.points + (db.settings.points_per_submission : Int)).fdiv (db.settings.level_threshold : Int) + 1 }),
        ?_, rfl, rfl, rfl, rfl, rfl, ?_, ?_⟩
    · simp only [increment_user_submissions]
      rw [hg]
      simp only [specLevel] at hlev
      simp [specLevel, hlev]
    · have h2 := getUser_updateUser_self _ uid _ hf2 _ hg
      rw [h2]
      simp only [specLevel] at hlev ⊢
      simp [hlev]
    · intro u hne
      have h1 := getUser_updateUser_other db uid _ hf1 u hne
      rw [getUser_updateUser_other _ uid _ hf2 u hne, h1]
  · refine ⟨updateUser db uid
        (fun u : User => { u with videos_submitted := u.videos_submitted + 1, points := u.points + (db.settings.points_per_submission : Int) }),
        ?_, rfl, rfl, rfl, rfl, rfl, ?_, ?_⟩
    · simp only [increment_user_submissions]
      rw [hg]
      simp only [specLevel] at hlev
      simp [specLevel, hlev]
    · rw [hg]
      simp only [specLevel] at hlev ⊢
      simp [hlev]
    · intro u hne
      exact getUser_updateUser_other db uid _ hf1 u hne

/-- Derived abbreviation: the level stored after an increment operation that
awards `award` points — the recomputed `specLevel` when it strictly exceeds
the old level, the old level otherwise. -/
def newLevelAfter (usr : User) (award : Int) (thr : Nat) : Int :=
  if specLevel (usr.points + award) thr > usr.level
  then specLevel (usr.points + award) thr else usr.level

/-- Derived abbreviation: the level-up bonus the bot awards after an
increment operation that awards `award` points. -/
def levelBonusAfter (usr : User) (award : Int) (thr : Nat) : Int :=
  if specLevel (usr.points + award) thr > usr.level ∧ 1 < newLevelAfter usr award thr
  then newLevelAfter usr award thr * 10 else 0

theorem levelBonusStage_spec (db : DB) (uid : Nat) (w : User) (b : Bool)
    (hu : getUser db uid = some w) :
    ∃ db',
      levelBonusStage db uid b
        = ((if b = true ∧ 1 < w.level then w.level * 10 else 0), db') ∧
      db'.videos = db.videos ∧ db'.likes = db.likes ∧
      db'.settings = db.settings ∧ db'.spam = db.spam ∧
      db'.next_video_id = db.next_video_id ∧
      getUser db' uid = some
        { w with points := w.points + (if b = true ∧ 1 < w.level then w.level * 10 else 0) } ∧
      (∀ u, u ≠ uid → getUser db' u = getUser db u) := by
  have hfp : ∀ x : User,
      ((fun u : User => { u with points := u.points + w.level * 10 }) x).user_id
        = x.user_id := fun x => rfl
  cases b with
  | false =>
    refine ⟨db, ?_, rfl, rfl, rfl, rfl, rfl, ?_, fun u _ => rfl⟩
    · simp [levelBonusStage]
    · simpa using hu
  | true =>
    by_cases hl : 1 < w.level
    · refine ⟨addPoints db uid (w.level * 10), ?_, rfl, rfl, rfl, rfl, rfl, ?_, ?_⟩
      · simp [levelBonusStage, hu, hl]
      · have := getUser_updateUser_self db uid _ hfp w hu
        unfold addPoints
        rw [this]
        simp [hl]
      · intro u hne
        exact getUser_updateUser_other db uid _ hfp u hne
    · refine ⟨db, ?_, rfl, rfl, rfl, rfl, rfl, ?_, fun u _ => rfl⟩
      · simp [levelBonusStage, hu, hl]
      · rw [hu]
        simp [hl]

theorem streakStage_spec (db : DB) (uid : Nat) (now : Nat) (w : User)
    (hu : getUser db uid = some w) :
    ∃ db',
      streakStage db uid now
        = (specStreakBonus (recentLikeCount db.likes uid now), db') ∧
      db'.videos = db.videos ∧ db'.likes = db.likes ∧
      db'.settings = db.settings ∧ db'.spam = db.spam ∧
      db'.next_video_id = db.next_video_id ∧
      getUser db' uid = some
        { w with points := w.points +
            (specStreakBonus (recentLikeCount db.likes uid now) : Int) } ∧
      (∀ u, u ≠ uid → getUser db' u = getUser db u) := by
  by_cases hc : 0 < recentLikeCount db.likes uid now ∧
      recentLikeCount db.likes uid now % 5 = 0
  · have hfp : ∀ x : User,
        ((fun u : User => { u with points := u.points +
          ((recentLikeCount db.likes uid now / 5 * 15 : Nat) : Int) }) x).user_id
          = x.user_id := fun x => rfl
    refine ⟨addPoints db uid ((recentLikeCount db.likes uid now / 5 * 15 : Nat) : Int),
      ?_, rfl, rfl, rfl, rfl, rfl, ?_, ?_⟩
    · simp [streakStage, specStreakBonus, hc, hc.1, hc.2]
    · have := getUser_updateUser_self db uid _ hfp w hu
      unfold addPoints
      rw [this]
      simp [specStreakBonus, hc]
    · intro u hne
      exact getUser_updateUser_other db uid _ hfp u hne
  · refine ⟨db, ?_, rfl, rfl, rfl, rfl, rfl, ?_, fun u _ => rfl⟩
    · simp only [streakStage, specStreakBonus, if_neg hc]
      rw [if_neg]
      intro h
      exact hc ⟨Nat.pos_of_ne_zero (by
        intro h0
        rw [h0] at h
        simp at h), by
        have := (Bool.and_eq_true _ _).mp h
        simpa using this.2⟩
    · rw [hu]
      simp [specStreakBonus, hc]

theorem likeBody_spec (db : DB) (uid vid now : Nat) (usr : User) (video : Video)
    (hu : getUser db uid = some usr)
    (hv : get_video db vid = some video)
    (hown : video.user_id ≠ uid)
    (hnew : has_liked_video db uid vid = false) :
    ∃ db',
      likeBody db uid vid now =
        (LikeResult.ok
          { leveled_up := decide (specLevel (usr.points + (db.settings.points_per_like : Int))
              db.settings.level_threshold > usr.level),
            levelBonus := levelBonusAfter usr (db.settings.points_per_like : Int)
              db.settings.level_threshold,
            streakBonus := specStreakBonus (recentLikeCount
              (db.likes ++ [{ user_id := uid, video_id := vid, like_time := now }]) uid now) },
          db') ∧
      db'.likes = db.likes ++ [{ user_id := uid, video_id := vid, like_time := now }] ∧
      db'.videos = db.videos.map
        (fun w => if w.id == vid then { w with likes_count := w.likes_count + 1 } else w) ∧
      db'.settings = db.settings ∧ db'.spam = db.spam ∧
      db'.next_video_id = db.next_video_id ∧
      getUser db' uid = some
        { usr with
          last_action := now,
          likes_given := usr.likes_given + 1,
          points := usr.points + (db.settings.points_per_like : Int)
            + levelBonusAfter usr (db.settings.points_per_like : Int) db.settings.level_threshold
            + (specStreakBonus (recentLikeCount
                (db.likes ++ [{ user_id := uid, video_id := vid, like_time := now }]) uid now) : Int),
          level := newLevelAfter usr (db.settings.points_per_like : Int)
            db.settings.level_threshold } ∧
      (∀ u, u ≠ uid → getUser db' u = getUser db u) := by
  have hfla : ∀ x : User,
      ((fun u : User => { u with last_action := now }) x).user_id = x.user_id :=
    fun x => rfl
  have hu0 : getUser (update_user_last_action db uid now) uid
      = some { usr with last_action := now } := by
    unfold update_user_last_action
    exact getUser_updateUser_self db uid _ hfla usr hu
  have hv0 : get_video (update_user_last_action db uid now) vid = some video := by
    unfold update_user_last_action
    simpa using hv
  have hnew0 : has_liked_video (update_user_last_action db uid now) uid vid = false := by
    unfold update_user_last_action
    simpa using hnew
  have hown0 : (video.user_id == uid) = false := by
    simpa using hown
  have h1users : ((add_like (update_user_last_action db uid now) uid vid now).2).users
      = (update_user_last_action db uid now).users :=
    add_like_users _ _ _ _
  have hu1 : getUser ((add_like (update_user_last_action db uid now) uid vid now).2) uid
      = some { usr with last_action := now } :=
    (getUser_users_eq h1users uid).trans hu0
  have h1likes : ((add_like (update_user_last_action db uid now) uid vid now).2).likes
      = db.likes ++ [{ user_id := uid, video_id := vid, like_time := now }] := by
    rw [add_like_likes_of_new _ _ _ _ hnew0]
    unfold update_user_last_action
    simp
  have h1videos : ((add_like (update_user_last_action db uid now) uid vid now).2).videos
      = db.videos.map
          (fun w => if w.id == vid then { w with likes_count := w.likes_count + 1 } else w) := by
    rw [add_like_videos_of_new _ _ _ _ hnew0]
    unfold update_user_last_action
    simp
  have h1settings : ((add_like (update_user_last_action db uid now) uid vid now).2).settings
      = db.settings := by
    rw [add_like_settings]
    unfold update_user_last_action
    simp
  have h1spam : ((add_like (update_user_last_action db uid now) uid vid now).2).spam
      = db.spam := by
    rw [add_like_spam]
    unfold update_user_last_action
    simp
  have h1next : ((add_like (update_user_last_action db uid now) uid vid now).2).next_video_id
      = db.next_video_id := by
    rw [add_like_next]
    unfold update_user_last_action
    simp
  obtain ⟨db2, hinc, hv2, hl2, hs2, hsp2, hn2, hg2, ho2⟩ :=
    increment_user_likes_spec _ uid { usr with last_action := now } hu1
  rw [h1settings] at hinc hg2
  simp only [] at hinc hg2
  obtain ⟨db3, hbs, hv3, hl3, hs3, hsp3, hn3, hg3, ho3⟩ :=
    levelBonusStage_spec db2 uid _
      (decide (specLevel (usr.points + (db.settings.points_per_like : Int))
        db.settings.level_threshold > usr.level)) hg2
  simp only [] at hbs hg3
  obtain ⟨db4, hss, hv4, hl4, hs4, hsp4, hn4, hg4, ho4⟩ :=
    streakStage_spec db3 uid now _ hg3
  simp only [] at hss hg4
  have hl3' : db3.likes = db.likes ++ [{ user_id := uid, video_id := vid, like_time := now }] := by
    rw [hl3, hl2, h1likes]
  rw [hl3'] at hss hg4
  refine ⟨db4, ?_, ?_, ?_, ?_, ?_, ?_, ?_, ?_⟩
  · simp only [likeBody, hv0, hown0, Bool.false_eq_true, if_false, hnew0, hinc,
      hbs, hss]
    simp only [LikeResult.ok.injEq, LikeOk.mk.injEq, Prod.mk.injEq,
      levelBonusAfter, newLevelAfter, decide_eq_true_eq, and_true, true_and]
  · rw [hl4, hl3, hl2, h1likes]
  · rw [hv4, hv3, hv2, h1videos]
  · rw [hs4, hs3, hs2, h1settings]
  · rw [hsp4, hsp3, hsp2, h1spam]
  · rw [hn4, hn3, hn2, h1next]
  · rw [hg4]
    simp only [levelBonusAfter, newLevelAfter, decide_eq_true_eq]
  · intro u hne
    rw [ho4 u hne, ho3 u hne, ho2 u hne, getUser_users_eq h1users u]
    unfold update_user_last_action
    exact getUser_updateUser_other db uid _ hfla u hne

@[simp] theorem add_video_users (db : DB) (uid : Nat) (url : String) (now : Nat) :
    ((add_video db uid url now).2).users = db.users := rfl

@[simp] theorem add_video_likes (db : DB) (uid : Nat) (url : String) (now : Nat) :
    ((add_video db uid url now).2).likes = db.likes := rfl

@[simp] theorem add_video_settings (db : DB) (uid : Nat) (url : String) (now : Nat) :
    ((add_video db uid url now).2).settings = db.settings := rfl

@[simp] theorem add_video_spam (db : DB) (uid : Nat) (url : String) (now : Nat) :
    ((add_video db uid url now).2).spam = db.spam := rfl

@[simp] theorem add_video_videos (db : DB) (uid : Nat) (url : String) (now : Nat) :
    ((add_video db uid url now).2).videos = db.videos ++
      [{ id := db.next_video_id, user_id := uid, tiktok_url := url,
         submission_time := now, status := "pending", likes_count := 0 }] := rfl

@[simp] theorem add_video_next (db : DB) (uid : Nat) (url : String) (now : Nat) :
    ((add_video db uid url now).2).next_video_id = db.next_video_id + 1 := rfl

@[simp] theorem add_video_fst (db : DB) (uid : Nat) (url : String) (now : Nat) :
    (add_video db uid url now).1 = db.next_video_id := rfl

theorem submitBody_reject_spec (db : DB) (uid : Nat) (url : String)
    (urlOk : Bool) (now : Nat) (usr : User)
    (hu : getUser db uid = some usr)
    (hlt : usr.likes_given < db.settings.likes_required) :
    submitBody db uid url urlOk now =
      (SubmitResult.needMore ((db.settings.likes_required : Int) - (usr.likes_given : Int)),
        update_user_last_action db uid now) ∧
    (update_user_last_action db uid now).videos = db.videos ∧
    (update_user_last_action db uid now).likes = db.likes ∧
    (update_user_last_action db uid now).settings = db.settings ∧
    (update_user_last_action db uid now).spam = db.spam ∧
    (update_user_last_action db uid now).next_video_id = db.next_video_id ∧
    getUser (update_user_last_action db uid now) uid
      = some { usr with last_action := now } ∧
    (∀ u, u ≠ uid → getUser (update_user_last_action db uid now) u = getUser db u) := by
  have hfla : ∀ x : User,
      ((fun u : User => { u with last_action := now }) x).user_id = x.user_id :=
    fun x => rfl
  have hu0 : getUser (update_user_last_action db uid now) uid
      = some { usr with last_action := now } := by
    unfold update_user_last_action
    exact getUser_updateUser_self db uid _ hfla usr hu
  have hcs : can_submit_video (update_user_last_action db uid now) uid = false := by
    unfold can_submit_video
    rw [hu0]
    simp only [update_user_last_action, updateUser_settings]
    simp [Nat.not_le.mpr hlt]
  refine ⟨?_, rfl, rfl, rfl, rfl, rfl, hu0, ?_⟩
  · simp only [submitBody, hcs, Bool.false_eq_true, if_false, hu0]
    simp [update_user_last_action]
  · intro u hne
    unfold update_user_last_action
    exact getUser_updateUser_other db uid _ hfla u hne

theorem submitBody_success_spec (db : DB) (uid : Nat) (url : String)
    (now : Nat) (usr : User)
    (hu : getUser db uid = some usr)
    (hge : usr.likes_given ≥ db.settings.likes_required) :
    ∃ db',
      submitBody db uid url true now =
        (SubmitResult.added db.next_video_id
          (decide (specLevel (usr.points + (db.settings.points_per_submission : Int))
            db.settings.level_threshold > usr.level))
          (levelBonusAfter usr (db.settings.points_per_submission : Int)
            db.settings.level_threshold),
          db') ∧
      db'.videos = db.videos ++
        [{ id := db.next_video_id, user_id := uid, tiktok_url := url,
           submission_time := now, status := "pending", likes_count := 0 }] ∧
      db'.likes = db.likes ∧
      db'.settings = db.settings ∧ db'.spam = db.spam ∧
      db'.next_video_id = db.next_video_id + 1 ∧
      getUser db' uid = some
        { usr with
          last_action := now,
          videos_submitted := usr.videos_submitted + 1,
          points := usr.points + (db.settings.points_per_submission : Int)
            + levelBonusAfter usr (db.settings.points_per_submission : Int)
                db.settings.level_threshold,
          level := newLevelAfter usr (db.settings.points_per_submission : Int)
            db.settings.level_threshold } ∧
      (∀ u, u ≠ uid → getUser db' u = getUser db u) := by
  have hfla : ∀ x : User,
      ((fun u : User => { u with last_action := now }) x).user_id = x.user_id :=
    fun x => rfl
  have hu0 : getUser (update_user_last_action db uid now) uid
      = some { usr with last_action := now } := by
    unfold update_user_last_action
    exact getUser_updateUser_self db uid _ hfla usr hu
  have hcs : can_submit_video (update_user_last_action db uid now) uid = true := by
    unfold can_submit_video
    rw [hu0]
    simp only [update_user_last_action, updateUser_settings]
    simpa using hge
  have hu1 : getUser ((add_video (update_user_last_action db uid now) uid url now).2) uid
      = some { usr with last_action := now } := by
    refine (getUser_users_eq ?_ uid).trans hu0
    rfl
  obtain ⟨db2, hinc, hv2, hl2, hs2, hsp2, hn2, hg2, ho2⟩ :=
    increment_user_submissions_spec _ uid { usr with last_action := now } hu1
  have hset1 : ((add_video (update_user_last_action db uid now) uid url now).2).settings
      = db.settings := by
    simp [update_user_last_action]
  rw [hset1] at hinc hg2
  simp only [] at hinc hg2
  obtain ⟨db3, hbs, hv3, hl3, hs3, hsp3, hn3, hg3, ho3⟩ :=
    levelBonusStage_spec db2 uid _
      (decide (specLevel (usr.points + (db.settings.points_per_submission : Int))
        db.settings.level_threshold > usr.level)) hg2
  simp only [] at hbs hg3
  refine ⟨db3, ?_, ?_, ?_, ?_, ?_, ?_, ?_, ?_⟩
  · simp only [submitBody, hcs, if_true, hinc, hbs]
    simp only [SubmitResult.added.injEq, Prod.mk.injEq, levelBonusAfter,
      newLevelAfter, decide_eq_true_eq, and_true, true_and]
    simp [update_user_last_action]
  · rw [hv3, hv2]
    simp [update_user_last_action]
  · rw [hl3, hl2]
    simp [update_user_last_action]
  · rw [hs3, hs2, hset1]
  · rw [hsp3, hsp2]
    simp [update_user_last_action]
  · rw [hn3, hn2]
    simp [update_user_last_action]
  · rw [hg3]
    simp only [levelBonusAfter, newLevelAfter, decide_eq_true_eq]
  · intro u hne
    rw [ho3 u hne, ho2 u hne]
    have : getUser ((add_video (update_user_last_action db uid now) uid url now).2) u
        = getUser (update_user_last_action db uid now) u := getUser_users_eq rfl u
    rw [this]
    unfold update_user_last_action
    exact getUser_updateUser_other db uid _ hfla u hne

/-! Claim theorems. -/

/-- C10: for a `user_id` with no row in `users`, `can_submit_video` returns a
falsy result (the gate is closed) without raising, whatever the
`likes_required` setting is — `user and user['likes_given'] >= likes_required`
short-circuits on the falsy `user`. -/
theorem C10_can_submit_missing_user (db : DB) (uid : Nat)
    (h : getUser db uid = none) : can_submit_video db uid = false := by
  unfold can_submit_video
  rw [h]

theorem C10_witness :
    getUser initDB 1 = none ∧ can_submit_video initDB 1 = false :=
  ⟨rfl, C10_can_submit_missing_user initDB 1 rfl⟩

/-- C9: `delete_video` removes exactly the Like rows referencing the video
and the video row itself; users, settings, spam records and the id counter
are untouched; afterwards the queue never lists the deleted id and a
has-liked check for it reports not liked, for every user. -/
theorem C9_delete_video_cascade (db : DB) (vid : Nat) :
    (delete_video db vid).likes = db.likes.filter (fun l => !(l.video_id == vid)) ∧
    (delete_video db vid).videos = db.videos.filter (fun v => !(v.id == vid)) ∧
    (delete_video db vid).users = db.users ∧
    (delete_video db vid).settings = db.settings ∧
    (delete_video db vid).spam = db.spam ∧
    (delete_video db vid).next_video_id = db.next_video_id ∧
    (∀ limit offset v, v ∈ get_queue (delete_video db vid) limit offset → v.id ≠ vid) ∧
    (∀ u, has_liked_video (delete_video db vid) u vid = false) := by
  refine ⟨rfl, rfl, rfl, rfl, rfl, rfl, ?_, ?_⟩
  · intro limit offset v hv
    have h1 : v ∈ queueSorted (delete_video db vid) :=
      List.mem_of_mem_drop (List.mem_of_mem_take hv)
    have h2 : v ∈ (delete_video db vid).videos.filter
        (fun w => (getUser (delete_video db vid) w.user_id).isSome) := by
      exact (List.perm_insertionSort byTime _).mem_iff.mp h1
    have h3 : v ∈ (delete_video db vid).videos := (List.mem_filter.mp h2).1
    have h4 : v ∈ db.videos.filter (fun w => !(w.id == vid)) := h3
    have h5 := (List.mem_filter.mp h4).2
    simpa using h5
  · intro u
    unfold has_liked_video
    rw [show (delete_video db vid).likes
        = db.likes.filter (fun l => !(l.video_id == vid)) from rfl]
    rw [List.any_eq_false]
    intro l hl
    have h5 := (List.mem_filter.mp hl).2
    simp only [Bool.not_eq_true'] at h5
    simp [h5]

/-- Key fact for the spam guard: `record_command` leaves exactly one record
for the `(user, command)` pair, carrying the recorded timestamp. -/
theorem spamLookup_record_self (db : DB) (uid : Nat) (cmd : String) (ts : Int) :
    spamLookup (record_command db uid cmd ts) uid cmd = some ts := by
  unfold spamLookup record_command
  simp only []
  rw [List.find?_append]
  have hnone : (db.spam.filter
      (fun r => !(r.user_id == uid && r.command == cmd))).find?
      (fun r => r.user_id == uid && r.command == cmd) = none := by
    rw [List.find?_eq_none]
    intro r hr
    have := (List.mem_filter.mp hr).2
    simp only [Bool.not_eq_true'] at this
    simp [this]
  rw [hnone]
  simp

/-- C6: the spam guard.  (1) With no prior record the command is always
allowed, for every timeout value.  (2) After `record_command` stamps time
`t`, a second invocation at time `now` is rejected when `now - t` is within
the timeout and allowed once strictly more than `spam_timeout` seconds have
elapsed.  (3) A user in the static `ADMIN_IDS` list or flagged `is_admin`
bypasses `check_spam` entirely: the command is admitted and no record is
written. -/
theorem C6_spam_guard :
    (∀ db uid cmd now, spamLookup db uid cmd = none →
      can_execute_command db uid cmd now = true) ∧
    (∀ db uid cmd (t now : Nat),
      ((now : Int) - (t : Int) ≤ (db.settings.spam_timeout : Int) →
        can_execute_command (record_command db uid cmd (t : Int)) uid cmd now = false) ∧
      ((now : Int) - (t : Int) > (db.settings.spam_timeout : Int) →
        can_execute_command (record_command db uid cmd (t : Int)) uid cmd now = true)) ∧
    (∀ adminIds db uid cmd now, (uid ∈ adminIds ∨ dbIsAdmin db uid = true) →
      checkSpam adminIds db uid cmd now = (false, db)) := by
  refine ⟨?_, ?_, ?_⟩
  · intro db uid cmd now h
    unfold can_execute_command
    rw [h]
  · intro db uid cmd t now
    constructor
    · intro hle
      unfold can_execute_command
      rw [spamLookup_record_self]
      simp only [record_command]
      simpa using Int.not_lt.mpr hle
    · intro hgt
      unfold can_execute_command
      rw [spamLookup_record_self]
      simpa using hgt
  · intro adminIds db uid cmd now h
    unfold checkSpam
    rcases h with h | h
    · have hc : adminIds.contains uid = true := List.elem_eq_true_of_mem h
      simp only [hc, Bool.true_or, if_true]
    · simp [h]

theorem C6_witness :
    (spamLookup initDB 1 "like" = none ∧
      can_execute_command initDB 1 "like" 50 = true) ∧
    (((50 : Int) - (47 : Int) ≤ (initDB.settings.spam_timeout : Int) ∧
        can_execute_command (record_command initDB 1 "like" (47 : Int)) 1 "like" 50 = false) ∧
      ((56 : Int) - (47 : Int) > (initDB.settings.spam_timeout : Int) ∧
        can_execute_command (record_command initDB 1 "like" (47 : Int)) 1 "like" 56 = true)) ∧
    ((1 ∈ [1, 9] ∨ dbIsAdmin initDB 1 = true) ∧
      checkSpam [1, 9] initDB 1 "like" 50 = (false, initDB)) :=
  ⟨⟨rfl, C6_spam_guard.1 initDB 1 "like" 50 rfl⟩,
   ⟨⟨by decide, (C6_spam_guard.2.1 initDB 1 "like" 47 50).1 (by decide)⟩,
    ⟨by decide, (C6_spam_guard.2.1 initDB 1 "like" 47 56).2 (by decide)⟩⟩,
   ⟨Or.inl (by decide),
    C6_spam_guard.2.2 [1, 9] initDB 1 "like" 50 (Or.inl (by decide))⟩⟩

/-- C7: the queue projection is ordered by non-decreasing submission time,
and pages with a common limit tile the ordered queue: two consecutive
offsets concatenate to one double-length slice, and the first `n` pages
concatenate to the first `n * limit` entries — no gaps, no duplicates. -/
theorem C7_queue_pagination :
    (∀ db limit offset, List.Pairwise byTime (get_queue db limit offset)) ∧
    (∀ db limit offset,
      get_queue db limit offset ++ get_queue db limit (offset + limit)
        = ((queueSorted db).drop offset).take (limit + limit)) ∧
    (∀ db limit n,
      ((List.range n).map (fun k => get_queue db limit (k * limit))).flatten
        = (queueSorted db).take (n * limit)) := by
  refine ⟨?_, ?_, ?_⟩
  · intro db limit offset
    have hsorted : List.Pairwise byTime (queueSorted db) :=
      List.sorted_insertionSort byTime _
    have hsub : List.Sublist (((queueSorted db).drop offset).take limit)
        (queueSorted db) :=
      (List.take_sublist _ _).trans (List.drop_sublist _ _)
    exact hsorted.sublist hsub
  · intro db limit offset
    unfold get_queue
    rw [List.take_add, List.drop_drop]
  · intro db limit n
    induction n with
    | zero => simp
    | succ m ih =>
      rw [List.range_succ, List.map_append, List.flatten_append, ih]
      simp only [List.map_cons, List.map_nil, List.flatten_cons, List.flatten_nil,
        List.append_nil]
      unfold get_queue
      rw [Nat.succ_mul, List.take_add]

/-- An auxiliary algebraic fact: the raise-only update equals a `max`. -/
theorem ite_gt_eq_max (a b : Int) : (if a > b then a else b) = max b a := by
  by_cases h : a > b
  · rw [if_pos h, max_eq_right h.le]
  · rw [if_neg h, max_eq_left (not_lt.mp h)]

/-- C2: on a successful like, the trailing-24h like count is recomputed from
scratch over the post-state Like rows; the streak bonus paid at that call is
exactly the spec formula (`(count / 5) * 15` when the count is a positive
multiple of 5), it is zero whenever the count is not a multiple of 5, and it
lands in the user's stored points on top of the per-like award and any
level-up bonus. -/
theorem C2_streak_bonus (db : DB) (uid vid now : Nat) (usr : User) (video : Video)
    (hu : getUser db uid = some usr) (hv : get_video db vid = some video)
    (hown : video.user_id ≠ uid) (hnew : has_liked_video db uid vid = false) :
    ∃ r db',
      likeBody db uid vid now = (LikeResult.ok r, db') ∧
      r.streakBonus = specStreakBonus (recentLikeCount db'.likes uid now) ∧
      (recentLikeCount db'.likes uid now % 5 ≠ 0 → r.streakBonus = 0) ∧
      ∃ w, getUser db' uid = some w ∧
        w.points = usr.points + (db.settings.points_per_like : Int)
          + r.levelBonus + (r.streakBonus : Int) := by
  obtain ⟨db', h1, h2, _, _, _, _, h7, _⟩ :=
    likeBody_spec db uid vid now usr video hu hv hown hnew
  refine ⟨_, db', h1, ?_, ?_, ?_⟩
  · rw [h2]
  · intro hmod
    rw [h2] at hmod
    simp only [specStreakBonus]
    rw [if_neg]
    intro hc
    exact hmod hc.2
  · exact ⟨_, h7, rfl⟩

/-- C3: when a like or a submission raises the level from `L` to `L + 1`
(with `L ≥ 1`, so `L + 1 > 1`), the bot pays exactly `(L + 1) * 10` bonus
points on top of the per-action award, and the bonus itself does not
retrigger a level check: the stored level after the whole call is still
`L + 1`. -/
theorem C3_levelup_bonus :
    (∀ db uid vid now usr video,
      getUser db uid = some usr → get_video db vid = some video →
      video.user_id ≠ uid → has_liked_video db uid vid = false →
      1 ≤ usr.level →
      specLevel (usr.points + (db.settings.points_per_like : Int))
        db.settings.level_threshold = usr.level + 1 →
      ∃ r db',
        likeBody db uid vid now = (LikeResult.ok r, db') ∧
        r.levelBonus = (usr.level + 1) * 10 ∧
        ∃ w, getUser db' uid = some w ∧ w.level = usr.level + 1 ∧
          w.points = usr.points + (db.settings.points_per_like : Int)
            + (usr.level + 1) * 10 + (r.streakBonus : Int)) ∧
    (∀ db uid url now usr,
      getUser db uid = some usr →
      usr.likes_given ≥ db.settings.likes_required →
      1 ≤ usr.level →
      specLevel (usr.points + (db.settings.points_per_submission : Int))
        db.settings.level_threshold = usr.level + 1 →
      ∃ lv b db',
        submitBody db uid url true now = (SubmitResult.added db.next_video_id lv b, db') ∧
        b = (usr.level + 1) * 10 ∧
        ∃ w, getUser db' uid = some w ∧ w.level = usr.level + 1 ∧
          w.points = usr.points + (db.settings.points_per_submission : Int)
            + (usr.level + 1) * 10) := by
  constructor
  · intro db uid vid now usr video hu hv hown hnew hl1 hrise
    have hcond : specLevel (usr.points + (db.settings.points_per_like : Int))
        db.settings.level_threshold > usr.level := by
      rw [hrise]; exact lt_add_one _
    have hna : newLevelAfter usr (db.settings.points_per_like : Int)
        db.settings.level_threshold = usr.level + 1 := by
      unfold newLevelAfter
      rw [if_pos hcond, hrise]
    have h1lt : (1 : Int) < usr.level + 1 := by omega
    have hba : levelBonusAfter usr (db.settings.points_per_like : Int)
        db.settings.level_threshold = (usr.level + 1) * 10 := by
      unfold levelBonusAfter
      rw [hna, if_pos ⟨hcond, h1lt⟩]
    obtain ⟨db', h1, _, _, _, _, _, h7, _⟩ :=
      likeBody_spec db uid vid now usr video hu hv hown hnew
    rw [hba] at h1 h7
    rw [hna] at h7
    exact ⟨_, db', h1, rfl, _, h7, rfl, rfl⟩
  · intro db uid url now usr hu hge hl1 hrise
    have hcond : specLevel (usr.points + (db.settings.points_per_submission : Int))
        db.settings.level_threshold > usr.level := by
      rw [hrise]; exact lt_add_one _
    have hna : newLevelAfter usr (db.settings.points_per_submission : Int)
        db.settings.level_threshold = usr.level + 1 := by
      unfold newLevelAfter
      rw [if_pos hcond, hrise]
    have h1lt : (1 : Int) < usr.level + 1 := by omega
    have hba : levelBonusAfter usr (db.settings.points_per_submission : Int)
        db.settings.level_threshold = (usr.level + 1) * 10 := by
      unfold levelBonusAfter
      rw [hna, if_pos ⟨hcond, h1lt⟩]
    obtain ⟨db', h1, _, _, _, _, _, h7, _⟩ :=
      submitBody_success_spec db uid url now usr hu hge
    rw [hba] at h1 h7
    rw [hna] at h7
    exact ⟨_, _, db', h1, rfl, _, h7, rfl, rfl⟩

/-! Concrete scenario states used by the witnesses and counterexamples.
They are reached by running operation traces from the freshly initialized
store. -/

/-- Two users; the reciprocity quota is dropped to 0 so that Bob can seed the
queue with two videos. -/
def demoOps : List Op :=
  [ .opStart 1 "alice" 100000, .opStart 2 "bob" 100000,
    .opSetLikesRequired 0,
    .opSubmit 2 "https://tiktok.com/v1" true 100010,
    .opSubmit 2 "https://tiktok.com/v2" true 100020 ]

def demoDB : DB := applyOps [] initDB demoOps

/-- Alice's row in `demoDB`. -/
def aliceW : User :=
  { user_id := 1, username := "alice", likes_given := 0, videos_submitted := 0,
    points := 0, level := 1, is_admin := false, joined_date := 100000,
    last_action := 100000 }

/-- Bob's first video in `demoDB`. -/
def video1W : Video :=
  { id := 1, user_id := 2, tiktok_url := "https://tiktok.com/v1",
    submission_time := 100010, status := "pending", likes_count := 0 }

/-- `demoDB` with Alice pushed to 45 points (one like short of the default
level threshold of 50). -/
def c3LikeDB : DB := applyOps [] initDB (demoOps ++ [Op.opAddPoints 1 45])

def alice45W : User :=
  { user_id := 1, username := "alice", likes_given := 0, videos_submitted := 0,
    points := 45, level := 1, is_admin := false, joined_date := 100000,
    last_action := 100000 }

/-- `demoDB` with Bob pushed to 45 points (one submission short of the
threshold); the quota is still 0, so Bob may submit. -/
def c3SubmitDB : DB := applyOps [] initDB (demoOps ++ [Op.opAddPoints 2 25])

def bob45W : User :=
  { user_id := 2, username := "bob", likes_given := 0, videos_submitted := 2,
    points := 45, level := 1, is_admin := false, joined_date := 100000,
    last_action := 100020 }

theorem C2_witness :
    ∃ r db',
      likeBody demoDB 1 1 200000 = (LikeResult.ok r, db') ∧
      r.streakBonus = specStreakBonus (recentLikeCount db'.likes 1 200000) ∧
      (recentLikeCount db'.likes 1 200000 % 5 ≠ 0 → r.streakBonus = 0) ∧
      ∃ w, getUser db' 1 = some w ∧
        w.points = aliceW.points + (demoDB.settings.points_per_like : Int)
          + r.levelBonus + (r.streakBonus : Int) :=
  C2_streak_bonus demoDB 1 1 200000 aliceW video1W (by decide) (by decide)
    (by decide) (by decide)

theorem C3_witness :
    (∃ r db',
      likeBody c3LikeDB 1 1 200000 = (LikeResult.ok r, db') ∧
      r.levelBonus = (alice45W.level + 1) * 10 ∧
      ∃ w, getUser db' 1 = some w ∧ w.level = alice45W.level + 1 ∧
        w.points = alice45W.points + (c3LikeDB.settings.points_per_like : Int)
          + (alice45W.level + 1) * 10 + (r.streakBonus : Int)) ∧
    (∃ lv b db',
      submitBody c3SubmitDB 2 "https://tiktok.com/v3" true 200000
        = (SubmitResult.added c3SubmitDB.next_video_id lv b, db') ∧
      b = (bob45W.level + 1) * 10 ∧
      ∃ w, getUser db' 2 = some w ∧ w.level = bob45W.level + 1 ∧
        w.points = bob45W.points + (c3SubmitDB.settings.points_per_submission : Int)
          + (bob45W.level + 1) * 10) :=
  ⟨C3_levelup_bonus.1 c3LikeDB 1 1 200000 alice45W video1W (by decide) (by decide)
     (by decide) (by decide) (by decide) (by decide),
   C3_levelup_bonus.2 c3SubmitDB 2 "https://tiktok.com/v3" 200000 bob45W
     (by decide) (by decide) (by decide) (by decide)⟩

/-- Operation trace refuting C1 as stated: with `level_threshold = 10` and
`points_per_like = 9`, Alice's second like levels her from 1 to 2 and pays
the 20-point bonus, after which her points are 38 but her stored level stays
2 while `floor(points / threshold) + 1 = 4`. -/
def c1ops : List Op :=
  [ .opStart 1 "alice" 100000, .opStart 2 "bob" 100000,
    .opSetLikesRequired 0, .opSetLevelThreshold 10, .opSetPointsPerLike 9,
    .opSubmit 2 "https://tiktok.com/v1" true 100010,
    .opSubmit 2 "https://tiktok.com/v2" true 100020,
    .opLike 1 1 100100, .opLike 1 2 100110 ]

/-- C1 fails on the code: right after the scoring mutation (the second like,
whose level-up bonus is attached to it), the stored level is 2 but
`floor(points / level_threshold) + 1` is 4. -/
theorem C1_counterexample :
    ((getUser (applyOps [] initDB c1ops) 1).map User.level = some 2) ∧
    ((getUser (applyOps [] initDB c1ops) 1).map
        (fun w => specLevel w.points ((applyOps [] initDB c1ops).settings.level_threshold))
      = some 4) := by
  decide

/-- C1 (amended): the recompute-and-raise step establishes
`level = max(old level, floor(points / threshold) + 1)` where `points` is the
value right after the per-action award; the attached level-up and streak
bonuses then add points without recomputing the level, so the stored level
afterwards is the `max` over the pre-bonus points, not over the final
points. -/
theorem C1_level_after_mutation :
    (∀ db uid vid now usr video,
      getUser db uid = some usr → get_video db vid = some video →
      video.user_id ≠ uid → has_liked_video db uid vid = false →
      ∃ r db',
        likeBody db uid vid now = (LikeResult.ok r, db') ∧
        ∃ w, getUser db' uid = some w ∧
          w.level = max usr.level
            (specLevel (usr.points + (db.settings.points_per_like : Int))
              db.settings.level_threshold) ∧
          w.points = usr.points + (db.settings.points_per_like : Int)
            + r.levelBonus + (r.streakBonus : Int)) ∧
    (∀ db uid url now usr,
      getUser db uid = some usr →
      usr.likes_given ≥ db.settings.likes_required →
      ∃ lv b db',
        submitBody db uid url true now
          = (SubmitResult.added db.next_video_id lv b, db') ∧
        ∃ w, getUser db' uid = some w ∧
          w.level = max usr.level
            (specLevel (usr.points + (db.settings.points_per_submission : Int))
              db.settings.level_threshold) ∧
          w.points = usr.points + (db.settings.points_per_submission : Int) + b) := by
  constructor
  · intro db uid vid now usr video hu hv hown hnew
    obtain ⟨db', h1, _, _, _, _, _, h7, _⟩ :=
      likeBody_spec db uid vid now usr video hu hv hown hnew
    have hmax : newLevelAfter usr (db.settings.points_per_like : Int)
        db.settings.level_threshold
        = max usr.level (specLevel (usr.points + (db.settings.points_per_like : Int))
            db.settings.level_threshold) := by
      unfold newLevelAfter
      exact ite_gt_eq_max _ _
    rw [hmax] at h7
    exact ⟨_, db', h1, _, h7, rfl, rfl⟩
  · intro db uid url now usr hu hge
    obtain ⟨db', h1, _, _, _, _, _, h7, _⟩ :=
      submitBody_success_spec db uid url now usr hu hge
    have hmax : newLevelAfter usr (db.settings.points_per_submission : Int)
        db.settings.level_threshold
        = max usr.level (specLevel (usr.points + (db.settings.points_per_submission : Int))
            db.settings.level_threshold) := by
      unfold newLevelAfter
      exact ite_gt_eq_max _ _
    rw [hmax] at h7
    exact ⟨_, _, db', h1, _, h7, rfl, rfl⟩

theorem C1_witness :
    (∃ r db',
      likeBody demoDB 1 1 200000 = (LikeResult.ok r, db') ∧
      ∃ w, getUser db' 1 = some w ∧
        w.level = max aliceW.level
          (specLevel (aliceW.points + (demoDB.settings.points_per_like : Int))
            demoDB.settings.level_threshold) ∧
        w.points = aliceW.points + (demoDB.settings.points_per_like : Int)
          + r.levelBonus + (r.streakBonus : Int)) ∧
    (∃ lv b db',
      submitBody c3SubmitDB 2 "https://tiktok.com/v4" true 200000
        = (SubmitResult.added c3SubmitDB.next_video_id lv b, db') ∧
      ∃ w, getUser db' 2 = some w ∧
        w.level = max bob45W.level
          (specLevel (bob45W.points + (c3SubmitDB.settings.points_per_submission : Int))
            c3SubmitDB.settings.level_threshold) ∧
        w.points = bob45W.points + (c3SubmitDB.settings.points_per_submission : Int) + b) :=
  ⟨C1_level_after_mutation.1 demoDB 1 1 200000 aliceW video1W (by decide) (by decide)
     (by decide) (by decide),
   C1_level_after_mutation.2 c3SubmitDB 2 "https://tiktok.com/v4" 200000 bob45W
     (by decide) (by decide)⟩

/-- A store holding only Alice, with the default settings (quota 3). -/
def c4DB : DB := applyOps [] initDB [Op.opStart 1 "alice" 100000]

/-- C4 fails on the code in one respect: the rejected submission still
mutates state — `cmd_submit` stamps the user's `last_action` before the gate
runs, so the post-state differs from the pre-state even though the
submission is refused with the correct shortfall `3 - 0 = 3`. -/
theorem C4_counterexample :
    (submitBody c4DB 1 "https://tiktok.com/v9" true 200000).1
      = SubmitResult.needMore 3 ∧
    (submitBody c4DB 1 "https://tiktok.com/v9" true 200000).2 ≠ c4DB := by
  decide

/-- C4 (amended): for an existing user, `can_submit_video` is true iff
`likes_given ≥ likes_required`; when it is false the submission is rejected
reporting the exact shortfall `likes_required - likes_given`, and nothing in
the ledger changes — videos, likes, settings, spam records, the id counter
and every user field are untouched — except the rejected user's
`last_action` timestamp, which is still updated. -/
theorem C4_submission_gate :
    (∀ db uid usr, getUser db uid = some usr →
      (can_submit_video db uid = true ↔
        usr.likes_given ≥ db.settings.likes_required)) ∧
    (∀ db uid url urlOk now usr, getUser db uid = some usr →
      usr.likes_given < db.settings.likes_required →
      submitBody db uid url urlOk now
        = (SubmitResult.needMore
            ((db.settings.likes_required : Int) - (usr.likes_given : Int)),
           update_user_last_action db uid now) ∧
      (update_user_last_action db uid now).videos = db.videos ∧
      (update_user_last_action db uid now).likes = db.likes ∧
      (update_user_last_action db uid now).settings = db.settings ∧
      (update_user_last_action db uid now).spam = db.spam ∧
      (update_user_last_action db uid now).next_video_id = db.next_video_id ∧
      getUser (update_user_last_action db uid now) uid
        = some { usr with last_action := now } ∧
      (∀ u, u ≠ uid → getUser (update_user_last_action db uid now) u
        = getUser db u)) := by
  constructor
  · intro db uid usr hu
    unfold can_submit_video
    rw [hu]
    simp
  · intro db uid url urlOk now usr hu hlt
    exact submitBody_reject_spec db uid url urlOk now usr hu hlt

theorem C4_witness :
    ((can_submit_video c4DB 1 = true ↔
        aliceW.likes_given ≥ c4DB.settings.likes_required) ∧
      ¬ can_submit_video c4DB 1 = true) ∧
    (submitBody c4DB 1 "https://tiktok.com/v9" true 200000
        = (SubmitResult.needMore
            ((c4DB.settings.likes_required : Int) - (aliceW.likes_given : Int)),
           update_user_last_action c4DB 1 200000) ∧
      (update_user_last_action c4DB 1 200000).videos = c4DB.videos ∧
      (update_user_last_action c4DB 1 200000).likes = c4DB.likes ∧
      (update_user_last_action c4DB 1 200000).settings = c4DB.settings ∧
      (update_user_last_action c4DB 1 200000).spam = c4DB.spam ∧
      (update_user_last_action c4DB 1 200000).next_video_id = c4DB.next_video_id ∧
      getUser (update_user_last_action c4DB 1 200000) 1
        = some { aliceW with last_action := 200000 } ∧
      (∀ u, u ≠ 1 → getUser (update_user_last_action c4DB 1 200000) u
        = getUser c4DB u)) :=
  ⟨⟨C4_submission_gate.1 c4DB 1 aliceW (by decide), by decide⟩,
   C4_submission_gate.2 c4DB 1 "https://tiktok.com/v9" true 200000 aliceW
     (by decide) (by decide)⟩

/-! Level monotonicity machinery for C8. -/

/-- One store evolves from another without ever lowering the level of an
existing user (and without dropping any user row). -/
def MonoStep (db db' : DB) : Prop :=
  ∀ u w, getUser db u = some w →
    ∃ w', getUser db' u = some w' ∧ w.level ≤ w'.level

theorem monoStep_refl (db : DB) : MonoStep db db :=
  fun _ w h => ⟨w, h, le_refl _⟩

theorem monoStep_trans {a b c : DB} (h1 : MonoStep a b) (h2 : MonoStep b c) :
    MonoStep a c := by
  intro u w hw
  obtain ⟨w1, hw1, hl1⟩ := h1 u w hw
  obtain ⟨w2, hw2, hl2⟩ := h2 u w1 hw1
  exact ⟨w2, hw2, le_trans hl1 hl2⟩

theorem monoStep_of_users_eq {db db' : DB} (h : db'.users = db.users) :
    MonoStep db db' :=
  fun u w hw => ⟨w, (getUser_users_eq h u).trans hw, le_refl _⟩

theorem monoStep_updateUser (db : DB) (uid : Nat) (f : User → User)
    (hf : ∀ x, (f x).user_id = x.user_id)
    (hlvl : ∀ x, x.level ≤ (f x).level) :
    MonoStep db (updateUser db uid f) := by
  intro u w hw
  rw [getUser_updateUser db uid f hf u, hw]
  refine ⟨_, rfl, ?_⟩
  by_cases h : (w.user_id == uid) = true
  · simp only [h, if_true]
    exact hlvl w
  · simp only [h]
    simp

/-- The raise-only level write: updating the level of the row read as `u0`
to a strictly larger value never lowers any user's level. -/
theorem monoStep_raise (db1 : DB) (uid : Nat) (nl : Int) (u0 : User)
    (hg : getUser db1 uid = some u0) (hgt : u0.level < nl) :
    MonoStep db1 (updateUser db1 uid (fun w => { w with level := nl })) := by
  intro u w hw
  have hf2 : ∀ x : User,
      ((fun w : User => { w with level := nl }) x).user_id = x.user_id :=
    fun x => rfl
  rw [getUser_updateUser db1 uid _ hf2 u, hw]
  refine ⟨_, rfl, ?_⟩
  by_cases hid : (w.user_id == uid) = true
  · have h1 := getUser_user_id db1 u w hw
    have h2 : w.user_id = uid := by simpa using hid
    have hu_eq : u = uid := h1.symm.trans h2
    subst hu_eq
    rw [hw] at hg
    cases hg
    simp only [hid, if_true]
    exact le_of_lt hgt
  · simp only [hid]
    simp

theorem monoStep_increment_user_likes (db : DB) (uid : Nat) (b : Bool)
    (db2 : DB) (h : increment_user_likes db uid = some (b, db2)) :
    MonoStep db db2 := by
  have hf1 : ∀ x : User,
      ((fun u : User => { u with likes_given := u.likes_given + 1,
                                 points := u.points + (db.settings.points_per_like : Int) }) x).user_id
        = x.user_id := fun x => rfl
  have hm1 : MonoStep db (updateUser db uid
      (fun u : User => { u with likes_given := u.likes_given + 1,
                                points := u.points + (db.settings.points_per_like : Int) })) :=
    monoStep_updateUser db uid _ hf1 (fun x => le_refl _)
  simp only [increment_user_likes] at h
  cases hg : getUser (updateUser db uid
      (fun u : User => { u with likes_given := u.likes_given + 1,
                                points := u.points + (db.settings.points_per_like : Int) })) uid with
  | none =>
    rw [hg] at h
    simp at h
  | some u0 =>
    rw [hg] at h
    simp only [] at h
    by_cases hc : u0.points.fdiv (db.settings.level_threshold : Int) + 1 > u0.level
    · rw [if_pos hc] at h
      injection h with h
      cases h
      exact monoStep_trans hm1 (monoStep_raise _ uid _ u0 hg hc)
    · rw [if_neg hc] at h
      injection h with h
      cases h
      exact hm1

theorem monoStep_increment_user_submissions (db : DB) (uid : Nat) (b : Bool)
    (db2 : DB) (h : increment_user_submissions db uid = some (b, db2)) :
    MonoStep db db2 := by
  have hf1 : ∀ x : User,
      ((fun u : User => { u with videos_submitted := u.videos_submitted + 1,
                                 points := u.points + (db.settings.points_per_submission : Int) }) x).user_id
        = x.user_id := fun x => rfl
  have hm1 : MonoStep db (updateUser db uid
      (fun u : User => { u with videos_submitted := u.videos_submitted + 1,
                                points := u.points + (db.settings.points_per_submission : Int) })) :=
    monoStep_updateUser db uid _ hf1 (fun x => le_refl _)
  simp only [increment_user_submissions] at h
  cases hg : getUser (updateUser db uid
      (fun u : User => { u with videos_submitted := u.videos_submitted + 1,
                                points := u.points + (db.settings.points_per_submission : Int) })) uid with
  | none =>
    rw [hg] at h
    simp at h
  | some u0 =>
    rw [hg] at h
    simp only [] at h
    by_cases hc : u0.points.fdiv (db.settings.level_threshold : Int) + 1 > u0.level
    · rw [if_pos hc] at h
      injection h with h
      cases h
      exact monoStep_trans hm1 (monoStep_raise _ uid _ u0 hg hc)
    · rw [if_neg hc] at h
      injection h with h
      cases h
      exact hm1

theorem monoStep_adminAddPoints (db : DB) (uid : Nat) (delta : Int) :
    MonoStep db (adminAddPoints db uid delta) := by
  have hf1 : ∀ x : User,
      ((fun u : User => { u with points := u.points + delta }) x).user_id
        = x.user_id := fun x => rfl
  have hm1 : MonoStep db (addPoints db uid delta) :=
    monoStep_updateUser db uid _ hf1 (fun x => le_refl _)
  simp only [adminAddPoints]
  cases hg : getUser (addPoints db uid delta) uid with
  | none =>
    simp only []
    exact hm1
  | some u0 =>
    simp only []
    by_cases hc : u0.points.fdiv ((addPoints db uid delta).settings.level_threshold : Int) + 1
        > u0.level
    · rw [if_pos hc]
      exact monoStep_trans hm1 (monoStep_raise _ uid _ u0 hg hc)
    · rw [if_neg hc]
      exact hm1

theorem monoStep_levelBonusStage (db : DB) (uid : Nat) (b : Bool) :
    MonoStep db ((levelBonusStage db uid b).2) := by
  unfold levelBonusStage
  cases b with
  | false => exact monoStep_refl db
  | true =>
    simp only [if_true]
    cases hg : getUser db uid with
    | none => exact monoStep_refl db
    | some u0 =>
      simp only []
      by_cases hc : u0.level > 1
      · rw [if_pos hc]
        exact monoStep_updateUser db uid _ (fun x => rfl) (fun x => le_refl _)
      · rw [if_neg hc]
        exact monoStep_refl db

theorem monoStep_streakStage (db : DB) (uid now : Nat) :
    MonoStep db ((streakStage db uid now).2) := by
  unfold streakStage
  by_cases hc : (recentLikeCount db.likes uid now > 0 &&
      recentLikeCount db.likes uid now % 5 == 0) = true
  · rw [if_pos hc]
    exact monoStep_updateUser db uid _ (fun x => rfl) (fun x => le_refl _)
  · rw [if_neg (by simpa using hc)]
    exact monoStep_refl db

theorem monoStep_likeBody (db : DB) (uid vid now : Nat) :
    MonoStep db ((likeBody db uid vid now).2) := by
  have hm0 : MonoStep db (update_user_last_action db uid now) := by
    unfold update_user_last_action
    exact monoStep_updateUser db uid _ (fun x => rfl) (fun x => le_refl _)
  simp only [likeBody]
  cases hv : get_video (update_user_last_action db uid now) vid with
  | none => exact hm0
  | some video =>
    by_cases ho : (video.user_id == uid) = true
    · simp only [ho, if_true]
      exact hm0
    · simp only [ho, Bool.false_eq_true, if_false]
      by_cases hl : has_liked_video (update_user_last_action db uid now) uid vid = true
      · simp only [hl, if_true]
        exact hm0
      · simp only [Bool.not_eq_true] at hl
        simp only [hl, Bool.false_eq_true, if_false]
        have hm1 : MonoStep db
            ((add_like (update_user_last_action db uid now) uid vid now).2) :=
          monoStep_trans hm0 (monoStep_of_users_eq (add_like_users _ _ _ _))
        cases hi : increment_user_likes
            ((add_like (update_user_last_action db uid now) uid vid now).2) uid with
        | none => exact hm1
        | some p =>
          obtain ⟨b, db2⟩ := p
          have hm2 : MonoStep db db2 :=
            monoStep_trans hm1 (monoStep_increment_user_likes _ uid b db2 hi)
          exact monoStep_trans hm2
            (monoStep_trans (monoStep_levelBonusStage db2 uid b)
              (monoStep_streakStage _ uid now))

theorem monoStep_submitBody (db : DB) (uid : Nat) (url : String) (urlOk : Bool)
    (now : Nat) : MonoStep db ((submitBody db uid url urlOk now).2) := by
  have hm0 : MonoStep db (update_user_last_action db uid now) := by
    unfold update_user_last_action
    exact monoStep_updateUser db uid _ (fun x => rfl) (fun x => le_refl _)
  simp only [submitBody]
  by_cases hcs : can_submit_video (update_user_last_action db uid now) uid = true
  · simp only [hcs, if_true]
    cases urlOk with
    | false =>
      simp only [Bool.false_eq_true, if_false]
      exact hm0
    | true =>
      simp only [if_true]
      have hm1 : MonoStep db
          ((add_video (update_user_last_action db uid now) uid url now).2) :=
        monoStep_trans hm0 (monoStep_of_users_eq rfl)
      cases hi : increment_user_submissions
          ((add_video (update_user_last_action db uid now) uid url now).2) uid with
      | none => exact hm1
      | some p =>
        obtain ⟨b, db2⟩ := p
        have hm2 : MonoStep db db2 :=
          monoStep_trans hm1 (monoStep_increment_user_submissions _ uid b db2 hi)
        exact monoStep_trans hm2 (monoStep_levelBonusStage db2 uid b)
  · simp only [hcs, Bool.false_eq_true, if_false]
    cases getUser (update_user_last_action db uid now) uid with
    | none => exact hm0
    | some u => exact hm0

theorem monoStep_add_user (db : DB) (uid : Nat) (un : String) (now : Nat) :
    MonoStep db (add_user db uid un now) := by
  unfold add_user
  by_cases hs : (getUser db uid).isSome = true
  · rw [if_pos hs]
    exact monoStep_refl db
  · rw [if_neg hs]
    intro u w hw
    refine ⟨w, ?_, le_refl _⟩
    unfold getUser at hw ⊢
    simp only []
    rw [List.find?_append, hw]
    rfl

theorem checkSpam_users (a : List Nat) (db : DB) (uid : Nat) (cmd : String)
    (now : Nat) : ((checkSpam a db uid cmd now).2).users = db.users := by
  unfold checkSpam
  by_cases h1 : (a.contains uid || dbIsAdmin db uid) = true
  · rw [if_pos h1]
  · rw [if_neg h1]
    by_cases h2 : can_execute_command db uid cmd now = true
    · rw [if_pos h2]
      rfl
    · rw [if_neg h2]

theorem monoStep_cmdStart (a : List Nat) (db : DB) (uid : Nat) (un : String)
    (now : Nat) : MonoStep db (cmdStart a db uid un now) := by
  unfold cmdStart
  have hgate : MonoStep db ((checkSpam a db uid "start" now).2) :=
    monoStep_of_users_eq (checkSpam_users a db uid "start" now)
  by_cases hb : (checkSpam a db uid "start" now).1 = true
  · rw [if_pos hb]
    exact hgate
  · rw [if_neg hb]
    have hm1 := monoStep_trans hgate
      (monoStep_add_user ((checkSpam a db uid "start" now).2) uid un now)
    have hmla : MonoStep (add_user ((checkSpam a db uid "start" now).2) uid un now)
        (update_user_last_action
          (add_user ((checkSpam a db uid "start" now).2) uid un now) uid now) := by
      unfold update_user_last_action
      exact monoStep_updateUser _ uid _ (fun x => rfl) (fun x => le_refl _)
    have hm2 := monoStep_trans hm1 hmla
    by_cases hc : (a.contains uid && !(dbIsAdmin
        (update_user_last_action (add_user ((checkSpam a db uid "start" now).2) uid un now)
          uid now) uid)) = true
    · rw [if_pos hc]
      have hadm : MonoStep
          (update_user_last_action
            (add_user ((checkSpam a db uid "start" now).2) uid un now) uid now)
          (set_admin_status
            (update_user_last_action
              (add_user ((checkSpam a db uid "start" now).2) uid un now) uid now)
            uid true) := by
        unfold set_admin_status
        exact monoStep_updateUser _ uid _ (fun x => rfl) (fun x => le_refl _)
      exact monoStep_trans hm2 hadm
    · rw [if_neg hc]
      exact hm2

theorem step_monoStep (a : List Nat) (db : DB) (op : Op)
    (hop : ∀ uid lvl, op ≠ Op.opSetLevel uid lvl) :
    MonoStep db (step a db op) := by
  cases op with
  | opStart uid un now => exact monoStep_cmdStart a db uid un now
  | opLike uid vid now =>
    simp only [step]
    have hgate : MonoStep db ((checkSpam a db uid "like" now).2) :=
      monoStep_of_users_eq (checkSpam_users a db uid "like" now)
    by_cases hb : (checkSpam a db uid "like" now).1 = true
    · rw [if_pos hb]
      exact hgate
    · rw [if_neg hb]
      exact monoStep_trans hgate (monoStep_likeBody _ uid vid now)
  | opSubmit uid url urlOk now =>
    simp only [step]
    have hgate : MonoStep db ((checkSpam a db uid "submit" now).2) :=
      monoStep_of_users_eq (checkSpam_users a db uid "submit" now)
    by_cases hb : (checkSpam a db uid "submit" now).1 = true
    · rw [if_pos hb]
      exact hgate
    · rw [if_neg hb]
      exact monoStep_trans hgate (monoStep_submitBody _ uid url urlOk now)
  | opTouch uid cmd now =>
    simp only [step]
    have hgate : MonoStep db ((checkSpam a db uid cmd now).2) :=
      monoStep_of_users_eq (checkSpam_users a db uid cmd now)
    by_cases hb : (checkSpam a db uid cmd now).1 = true
    · rw [if_pos hb]
      exact hgate
    · rw [if_neg hb]
      have hla : MonoStep ((checkSpam a db uid cmd now).2)
          (update_user_last_action ((checkSpam a db uid cmd now).2) uid now) := by
        unfold update_user_last_action
        exact monoStep_updateUser _ uid _ (fun x => rfl) (fun x => le_refl _)
      exact monoStep_trans hgate hla
  | opDeleteVideo vid =>
    simp only [step]
    by_cases hv : (get_video db vid).isSome = true
    · rw [if_pos hv]
      exact monoStep_of_users_eq rfl
    · rw [if_neg hv]
      exact monoStep_refl db
  | opClearQueue => exact monoStep_of_users_eq rfl
  | opAddAdmin uid =>
    exact monoStep_updateUser db uid _ (fun x => rfl) (fun x => le_refl _)
  | opResetLikes uid =>
    exact monoStep_updateUser db uid _ (fun x => rfl) (fun x => le_refl _)
  | opAddPoints uid delta => exact monoStep_adminAddPoints db uid delta
  | opSetLevel uid lvl => exact absurd rfl (hop uid lvl)
  | opBan uid now =>
    simp only [step, adminBan]
    exact monoStep_of_users_eq rfl
  | opSetLikesRequired n =>
    simp only [step, adminSetLikesRequired]
    by_cases h : n < 0
    · rw [if_pos h]
      exact monoStep_refl db
    · rw [if_neg h]
      exact monoStep_of_users_eq rfl
  | opSetPointsPerLike n =>
    simp only [step, adminSetPointsPerLike]
    by_cases h : n < 0
    · rw [if_pos h]
      exact monoStep_refl db
    · rw [if_neg h]
      exact monoStep_of_users_eq rfl
  | opSetPointsPerSubmission n =>
    simp only [step, adminSetPointsPerSubmission]
    by_cases h : n < 0
    · rw [if_pos h]
      exact monoStep_refl db
    · rw [if_neg h]
      exact monoStep_of_users_eq rfl
  | opSetLevelThreshold n =>
    simp only [step, adminSetLevelThreshold]
    by_cases h : n < 1
    · rw [if_pos h]
      exact monoStep_refl db
    · rw [if_neg h]
      exact monoStep_of_users_eq rfl
  | opSetSpamTimeout n =>
    simp only [step, adminSetSpamTimeout]
    by_cases h : n < 0
    · rw [if_pos h]
      exact monoStep_refl db
    · rw [if_neg h]
      exact monoStep_of_users_eq rfl

/-- Operation trace refuting C8 as stated: Alice reaches level 3 through an
admin point grant, and the admin set-level action then lowers her stored
level back to 1. -/
theorem C8_counterexample :
    ((getUser (applyOps [] initDB
        [Op.opStart 1 "alice" 5, Op.opAddPoints 1 100]) 1).map User.level
      = some 3) ∧
    ((getUser (applyOps [] initDB
        [Op.opStart 1 "alice" 5, Op.opAddPoints 1 100, Op.opSetLevel 1 1]) 1).map
        User.level
      = some 1) := by
  decide

/-- C8 (amended): a user row is created with level 1, and the level is
non-decreasing under every operation of the system except the admin
set-level action, which overwrites it with any chosen value `≥ 1` — possibly
a lower one. -/
theorem C8_level_monotonicity :
    (∀ db uid un now w,
      getUser db uid = none →
      getUser (add_user db uid un now) uid = some w → w.level = 1) ∧
    (∀ adminIds db op, (∀ uid lvl, op ≠ Op.opSetLevel uid lvl) →
      MonoStep db (step adminIds db op)) := by
  constructor
  · intro db uid un now w hnone hsome
    unfold add_user at hsome
    have hns : (getUser db uid).isSome = false := by rw [hnone]; rfl
    rw [if_neg (by simp [hns])] at hsome
    unfold getUser at hsome hnone
    simp only [] at hsome
    rw [List.find?_append, hnone] at hsome
    simp at hsome
    rw [← hsome]
  · intro adminIds db op hop
    exact step_monoStep adminIds db op hop

theorem C8_witness :
    (getUser initDB 1 = none ∧
      getUser (add_user initDB 1 "alice" 100000) 1 = some aliceW ∧
      aliceW.level = 1) ∧
    ((∀ uid lvl, Op.opAddPoints 1 7 ≠ Op.opSetLevel uid lvl) ∧
      ∃ w', getUser (step [] c4DB (Op.opAddPoints 1 7)) 1 = some w' ∧
        aliceW.level ≤ w'.level) :=
  ⟨⟨rfl, by decide,
    C8_level_monotonicity.1 initDB 1 "alice" 100000 aliceW rfl (by decide)⟩,
   ⟨fun uid lvl h => Op.noConfusion h,
    C8_level_monotonicity.2 [] c4DB (Op.opAddPoints 1 7)
      (fun uid lvl h => Op.noConfusion h) 1 aliceW (by decide)⟩⟩

theorem C9_witness :
    (delete_video demoDB 1).likes
      = demoDB.likes.filter (fun l => !(l.video_id == 1)) ∧
    (delete_video demoDB 1).videos
      = demoDB.videos.filter (fun v => !(v.id == 1)) ∧
    (delete_video demoDB 1).users = demoDB.users ∧
    (delete_video demoDB 1).settings = demoDB.settings ∧
    (delete_video demoDB 1).spam = demoDB.spam ∧
    (delete_video demoDB 1).next_video_id = demoDB.next_video_id ∧
    (∀ limit offset v, v ∈ get_queue (delete_video demoDB 1) limit offset →
      v.id ≠ 1) ∧
    (∀ u, has_liked_video (delete_video demoDB 1) u 1 = false) :=
  C9_delete_video_cascade demoDB 1

/-! Like-table integrity machinery for C5. -/

/-- The `(user, video)` key of each Like row. -/
def likePairs (likes : List Like) : List (Nat × Nat) :=
  likes.map (fun l => (l.user_id, l.video_id))

/-- No two Like rows share a `(user, video)` pair. -/
def NoDupLikePairs (db : DB) : Prop := (likePairs db.likes).Nodup

/-- No Like row points at a video owned by the liking user. -/
def NoSelfLike (db : DB) : Prop :=
  ∀ l ∈ db.likes, ∀ v ∈ db.videos, v.id = l.video_id → v.user_id ≠ l.user_id

/-- The inductive invariant: the two claimed properties plus the bookkeeping
needed to push them through the operations (video ids are below the
AUTOINCREMENT counter, like rows reference only such ids, and video ids are
unique). -/
def Inv (db : DB) : Prop :=
  NoDupLikePairs db ∧ NoSelfLike db ∧
  (∀ v ∈ db.videos, v.id < db.next_video_id) ∧
  (∀ l ∈ db.likes, l.video_id < db.next_video_id) ∧
  (db.videos.map Video.id).Nodup

theorem Inv_congr {db db' : DB} (hl : db'.likes = db.likes)
    (hv : db'.videos = db.videos) (hn : db'.next_video_id = db.next_video_id)
    (h : Inv db) : Inv db' := by
  unfold Inv NoDupLikePairs NoSelfLike at h ⊢
  rw [hl, hv, hn]
  exact h

theorem Inv_initDB : Inv initDB := by
  refine ⟨?_, ?_, ?_, ?_, ?_⟩ <;> simp [NoDupLikePairs, NoSelfLike, likePairs, initDB]

theorem levelBonusStage_tables (db : DB) (uid : Nat) (b : Bool) :
    ((levelBonusStage db uid b).2).likes = db.likes ∧
    ((levelBonusStage db uid b).2).videos = db.videos ∧
    ((levelBonusStage db uid b).2).next_video_id = db.next_video_id := by
  unfold levelBonusStage
  cases b with
  | false => exact ⟨rfl, rfl, rfl⟩
  | true =>
    simp only [if_true]
    cases getUser db uid with
    | none => exact ⟨rfl, rfl, rfl⟩
    | some u0 =>
      simp only []
      by_cases hc : u0.level > 1
      · rw [if_pos hc]
        exact ⟨rfl, rfl, rfl⟩
      · rw [if_neg hc]
        exact ⟨rfl, rfl, rfl⟩

theorem streakStage_tables (db : DB) (uid now : Nat) :
    ((streakStage db uid now).2).likes = db.likes ∧
    ((streakStage db uid now).2).videos = db.videos ∧
    ((streakStage db uid now).2).next_video_id = db.next_video_id := by
  unfold streakStage
  by_cases hc : (recentLikeCount db.likes uid now > 0 &&
      recentLikeCount db.likes uid now % 5 == 0) = true
  · rw [if_pos hc]
    exact ⟨rfl, rfl, rfl⟩
  · rw [if_neg (by simpa using hc)]
    exact ⟨rfl, rfl, rfl⟩

theorem increment_user_likes_tables (db : DB) (uid : Nat) (b : Bool) (db2 : DB)
    (h : increment_user_likes db uid = some (b, db2)) :
    db2.likes = db.likes ∧ db2.videos = db.videos ∧
    db2.next_video_id = db.next_video_id := by
  simp only [increment_user_likes] at h
  cases hg : getUser (updateUser db uid
      (fun u : User => { u with likes_given := u.likes_given + 1,
                                points := u.points + (db.settings.points_per_like : Int) })) uid with
  | none =>
    rw [hg] at h
    simp at h
  | some u0 =>
    rw [hg] at h
    simp only [] at h
    by_cases hc : u0.points.fdiv (db.settings.level_threshold : Int) + 1 > u0.level
    · rw [if_pos hc] at h
      injection h with h
      cases h
      exact ⟨rfl, rfl, rfl⟩
    · rw [if_neg hc] at h
      injection h with h
      cases h
      exact ⟨rfl, rfl, rfl⟩

theorem increment_user_submissions_tables (db : DB) (uid : Nat) (b : Bool) (db2 : DB)
    (h : increment_user_submissions db uid = some (b, db2)) :
    db2.likes = db.likes ∧ db2.videos = db.videos ∧
    db2.next_video_id = db.next_video_id := by
  simp only [increment_user_submissions] at h
  cases hg : getUser (updateUser db uid
      (fun u : User => { u with videos_submitted := u.videos_submitted + 1,
                                points := u.points + (db.settings.points_per_submission : Int) })) uid with
  | none =>
    rw [hg] at h
    simp at h
  | some u0 =>
    rw [hg] at h
    simp only [] at h
    by_cases hc : u0.points.fdiv (db.settings.level_threshold : Int) + 1 > u0.level
    · rw [if_pos hc] at h
      injection h with h
      cases h
      exact ⟨rfl, rfl, rfl⟩
    · rw [if_neg hc] at h
      injection h with h
      cases h
      exact ⟨rfl, rfl, rfl⟩

theorem checkSpam_tables (a : List Nat) (db : DB) (uid : Nat) (cmd : String)
    (now : Nat) :
    ((checkSpam a db uid cmd now).2).likes = db.likes ∧
    ((checkSpam a db uid cmd now).2).videos = db.videos ∧
    ((checkSpam a db uid cmd now).2).next_video_id = db.next_video_id ∧
    ((checkSpam a db uid cmd now).2).users = db.users := by
  unfold checkSpam
  by_cases h1 : (a.contains uid || dbIsAdmin db uid) = true
  · rw [if_pos h1]
    exact ⟨rfl, rfl, rfl, rfl⟩
  · rw [if_neg h1]
    by_cases h2 : can_execute_command db uid cmd now = true
    · rw [if_pos h2]
      exact ⟨rfl, rfl, rfl, rfl⟩
    · rw [if_neg h2]
      exact ⟨rfl, rfl, rfl, rfl⟩

/-- Exhaustive description of what `likeBody` does to the three like/video
tables: either it leaves them unchanged (any rejection, for any reason), or
the validations passed and it appended exactly one Like row for an existing,
non-own, not-yet-liked video, bumping that video's `likes_count`. -/
theorem likeBody_tables (db : DB) (uid vid now : Nat) :
    (((likeBody db uid vid now).2).likes = db.likes ∧
     ((likeBody db uid vid now).2).videos = db.videos ∧
     ((likeBody db uid vid now).2).next_video_id = db.next_video_id) ∨
    (∃ video, get_video db vid = some video ∧ (video.user_id == uid) = false ∧
      has_liked_video db uid vid = false ∧
      ((likeBody db uid vid now).2).likes
        = db.likes ++ [{ user_id := uid, video_id := vid, like_time := now }] ∧
      ((likeBody db uid vid now).2).videos
        = db.videos.map (fun w => if w.id == vid then
            { w with likes_count := w.likes_count + 1 } else w) ∧
      ((likeBody db uid vid now).2).next_video_id = db.next_video_id) := by
  simp only [likeBody]
  cases hv : get_video (update_user_last_action db uid now) vid with
  | none => exact Or.inl ⟨rfl, rfl, rfl⟩
  | some video =>
    by_cases ho : (video.user_id == uid) = true
    · simp only [ho, if_true]
      exact Or.inl ⟨rfl, rfl, rfl⟩
    · simp only [ho, Bool.false_eq_true, if_false]
      by_cases hl : has_liked_video (update_user_last_action db uid now) uid vid = true
      · simp only [hl, if_true]
        exact Or.inl ⟨rfl, rfl, rfl⟩
      · simp only [Bool.not_eq_true] at hl
        simp only [hl, Bool.false_eq_true, if_false]
        refine Or.inr ⟨video, hv, by simpa using ho, hl, ?_⟩
        have hlikes1 : ((add_like (update_user_last_action db uid now) uid vid now).2).likes
            = db.likes ++ [{ user_id := uid, video_id := vid, like_time := now }] := by
          rw [add_like_likes_of_new _ _ _ _ hl]
          rfl
        have hvids1 : ((add_like (update_user_last_action db uid now) uid vid now).2).videos
            = db.videos.map (fun w => if w.id == vid then
                { w with likes_count := w.likes_count + 1 } else w) := by
          rw [add_like_videos_of_new _ _ _ _ hl]
          rfl
        have hnext1 : ((add_like (update_user_last_action db uid now) uid vid now).2).next_video_id
            = db.next_video_id := by
          rw [add_like_next]
          rfl
        cases hi : increment_user_likes
            ((add_like (update_user_last_action db uid now) uid vid now).2) uid with
        | none => exact ⟨hlikes1, hvids1, hnext1⟩
        | some p =>
          obtain ⟨b, db2⟩ := p
          obtain ⟨hl2, hv2, hn2⟩ := increment_user_likes_tables _ uid b db2 hi
          obtain ⟨hl3, hv3, hn3⟩ := levelBonusStage_tables db2 uid b
          obtain ⟨hl4, hv4, hn4⟩ := streakStage_tables (levelBonusStage db2 uid b).2 uid now
          refine ⟨?_, ?_, ?_⟩
          · rw [hl4, hl3, hl2, hlikes1]
          · rw [hv4, hv3, hv2, hvids1]
          · rw [hn4, hn3, hn2, hnext1]

/-- Exhaustive description of what `submitBody` does to the tables: either
unchanged (rejection or invalid URL), or exactly one fresh-id video row is
appended and the id counter advances. -/
theorem submitBody_tables (db : DB) (uid : Nat) (url : String) (urlOk : Bool)
    (now : Nat) :
    (((submitBody db uid url urlOk now).2).likes = db.likes ∧
     ((submitBody db uid url urlOk now).2).videos = db.videos ∧
     ((submitBody db uid url urlOk now).2).next_video_id = db.next_video_id) ∨
    (((submitBody db uid url urlOk now).2).likes = db.likes ∧
     ((submitBody db uid url urlOk now).2).videos
       = db.videos ++ [{ id := db.next_video_id, user_id := uid, tiktok_url := url,
                         submission_time := now, status := "pending", likes_count := 0 }] ∧
     ((submitBody db uid url urlOk now).2).next_video_id = db.next_video_id + 1) := by
  simp only [submitBody]
  by_cases hcs : can_submit_video (update_user_last_action db uid now) uid = true
  · simp only [hcs, if_true]
    cases urlOk with
    | false =>
      simp only [Bool.false_eq_true, if_false]
      exact Or.inl ⟨rfl, rfl, rfl⟩
    | true =>
      simp only [if_true]
      cases hi : increment_user_submissions
          ((add_video (update_user_last_action db uid now) uid url now).2) uid with
      | none =>
        exact Or.inr ⟨rfl, rfl, rfl⟩
      | some p =>
        obtain ⟨b, db2⟩ := p
        obtain ⟨hl2, hv2, hn2⟩ := increment_user_submissions_tables _ uid b db2 hi
        obtain ⟨hl3, hv3, hn3⟩ := levelBonusStage_tables db2 uid b
        refine Or.inr ⟨?_, ?_, ?_⟩
        · rw [hl3, hl2]
          rfl
        · rw [hv3, hv2]
          rfl
        · rw [hn3, hn2]
          rfl
  · simp only [hcs, Bool.false_eq_true, if_false]
    cases getUser (update_user_last_action db uid now) uid with
    | none => exact Or.inl ⟨rfl, rfl, rfl⟩
    | some u => exact Or.inl ⟨rfl, rfl, rfl⟩

theorem cmdStart_tables (a : List Nat) (db : DB) (uid : Nat) (un : String)
    (now : Nat) :
    (cmdStart a db uid un now).likes = db.likes ∧
    (cmdStart a db uid un now).videos = db.videos ∧
    (cmdStart a db uid un now).next_video_id = db.next_video_id := by
  unfold cmdStart
  obtain ⟨h1, h2, h3, _⟩ := checkSpam_tables a db uid "start" now
  by_cases hb : (checkSpam a db uid "start" now).1 = true
  · rw [if_pos hb]
    exact ⟨h1, h2, h3⟩
  · rw [if_neg hb]
    have hadd : ∀ d : DB, (add_user d uid un now).likes = d.likes ∧
        (add_user d uid un now).videos = d.videos ∧
        (add_user d uid un now).next_video_id = d.next_video_id := by
      intro d
      unfold add_user
      by_cases hs : (getUser d uid).isSome = true
      · rw [if_pos hs]
        exact ⟨rfl, rfl, rfl⟩
      · rw [if_neg hs]
        exact ⟨rfl, rfl, rfl⟩
    obtain ⟨g1, g2, g3⟩ := hadd ((checkSpam a db uid "start" now).2)
    by_cases hc : (a.contains uid && !(dbIsAdmin
        (update_user_last_action (add_user ((checkSpam a db uid "start" now).2) uid un now)
          uid now) uid)) = true
    · rw [if_pos hc]
      refine ⟨?_, ?_, ?_⟩
      · rw [show (set_admin_status (update_user_last_action
            (add_user ((checkSpam a db uid "start" now).2) uid un now) uid now) uid true).likes
            = (add_user ((checkSpam a db uid "start" now).2) uid un now).likes from rfl,
          g1, h1]
      · rw [show (set_admin_status (update_user_last_action
            (add_user ((checkSpam a db uid "start" now).2) uid un now) uid now) uid true).videos
            = (add_user ((checkSpam a db uid "start" now).2) uid un now).videos from rfl,
          g2, h2]
      · rw [show (set_admin_status (update_user_last_action
            (add_user ((checkSpam a db uid "start" now).2) uid un now) uid now)
              uid true).next_video_id
            = (add_user ((checkSpam a db uid "start" now).2) uid un now).next_video_id from rfl,
          g3, h3]
    · rw [if_neg hc]
      refine ⟨?_, ?_, ?_⟩
      · rw [show (update_user_last_action
            (add_user ((checkSpam a db uid "start" now).2) uid un now) uid now).likes
            = (add_user ((checkSpam a db uid "start" now).2) uid un now).likes from rfl,
          g1, h1]
      · rw [show (update_user_last_action
            (add_user ((checkSpam a db uid "start" now).2) uid un now) uid now).videos
            = (add_user ((checkSpam a db uid "start" now).2) uid un now).videos from rfl,
          g2, h2]
      · rw [show (update_user_last_action
            (add_user ((checkSpam a db uid "start" now).2) uid un now) uid now).next_video_id
            = (add_user ((checkSpam a db uid "start" now).2) uid un now).next_video_id from rfl,
          g3, h3]

/-- Inserting a validated like preserves the invariant: the video exists, is
not owned by the liker, and the pair was not present. -/
theorem Inv_like_shape (db : DB) (uid vid now : Nat) (video : Video) (db' : DB)
    (hInv : Inv db)
    (hv : get_video db vid = some video)
    (ho : (video.user_id == uid) = false)
    (hl : has_liked_video db uid vid = false)
    (hlikes : db'.likes = db.likes ++ [{ user_id := uid, video_id := vid, like_time := now }])
    (hvids : db'.videos = db.videos.map (fun w => if w.id == vid then
      { w with likes_count := w.likes_count + 1 } else w))
    (hnext : db'.next_video_id = db.next_video_id) :
    Inv db' := by
  obtain ⟨hdup, hself, hfreshV, hfreshL, hnodupV⟩ := hInv
  have hmem : video ∈ db.videos := List.mem_of_find?_eq_some hv
  have hvid_eq : video.id = vid := by
    have := List.find?_some hv
    simpa using this
  have hbid : ∀ w : Video, ((fun w : Video => if w.id == vid then
      { w with likes_count := w.likes_count + 1 } else w) w).id = w.id := by
    intro w
    simp only []
    split <;> rfl
  have hbuid : ∀ w : Video, ((fun w : Video => if w.id == vid then
      { w with likes_count := w.likes_count + 1 } else w) w).user_id = w.user_id := by
    intro w
    simp only []
    split <;> rfl
  have hnotpair : ((uid, vid) : Nat × Nat) ∉ likePairs db.likes := by
    intro hp
    obtain ⟨l, hlm, hpl⟩ := List.mem_map.mp hp
    have h5 := List.any_eq_false.mp hl l hlm
    have h6 : l.user_id = uid := congrArg Prod.fst hpl
    have h7 : l.video_id = vid := congrArg Prod.snd hpl
    simp [h6, h7] at h5
  refine ⟨?_, ?_, ?_, ?_, ?_⟩
  · unfold NoDupLikePairs likePairs
    rw [hlikes, List.map_append]
    refine List.Nodup.append hdup (by simp) ?_
    intro p hp1 hp2
    simp only [List.map_cons, List.map_nil, List.mem_singleton] at hp2
    rw [hp2] at hp1
    exact hnotpair hp1
  · intro l hm v hvm hid
    rw [hvids] at hvm
    obtain ⟨v0, hv0, rfl⟩ := List.mem_map.mp hvm
    rw [hbid v0] at hid
    rw [hbuid v0]
    rw [hlikes] at hm
    rcases List.mem_append.mp hm with hold | hnew
    · exact hself l hold v0 hv0 hid
    · simp only [List.mem_singleton] at hnew
      subst hnew
      have hv0id : v0.id = video.id := by
        rw [hid]
        exact hvid_eq.symm
      have hv0eq : v0 = video :=
        List.inj_on_of_nodup_map hnodupV hv0 hmem hv0id
      rw [hv0eq]
      simpa using ho
  · intro v hvm
    rw [hvids] at hvm
    rw [hnext]
    obtain ⟨v0, hv0, rfl⟩ := List.mem_map.mp hvm
    rw [hbid v0]
    exact hfreshV v0 hv0
  · intro l hm
    rw [hlikes] at hm
    rw [hnext]
    rcases List.mem_append.mp hm with hold | hnew
    · exact hfreshL l hold
    · simp only [List.mem_singleton] at hnew
      subst hnew
      simp only []
      rw [← hvid_eq]
      exact hfreshV video hmem
  · rw [hvids]
    rw [List.map_map]
    have : (Video.id ∘ (fun w : Video => if w.id == vid then
        { w with likes_count := w.likes_count + 1 } else w)) = Video.id := by
      funext w
      exact hbid w
    rw [this]
    exact hnodupV

/-- Appending a fresh-id video preserves the invariant. -/
theorem Inv_submit_shape (db : DB) (uid : Nat) (url : String) (now : Nat)
    (db' : DB) (hInv : Inv db)
    (hlikes : db'.likes = db.likes)
    (hvids : db'.videos = db.videos ++
      [{ id := db.next_video_id, user_id := uid, tiktok_url := url,
         submission_time := now, status := "pending", likes_count := 0 }])
    (hnext : db'.next_video_id = db.next_video_id + 1) :
    Inv db' := by
  obtain ⟨hdup, hself, hfreshV, hfreshL, hnodupV⟩ := hInv
  refine ⟨?_, ?_, ?_, ?_, ?_⟩
  · unfold NoDupLikePairs
    rw [hlikes]
    exact hdup
  · intro l hm v hvm hid
    rw [hlikes] at hm
    rw [hvids] at hvm
    rcases List.mem_append.mp hvm with hold | hnew
    · exact hself l hm v hold hid
    · simp only [List.mem_singleton] at hnew
      subst hnew
      exfalso
      have h1 := hfreshL l hm
      simp only [] at hid
      rw [← hid] at h1
      exact lt_irrefl _ h1
  · intro v hvm
    rw [hvids] at hvm
    rw [hnext]
    rcases List.mem_append.mp hvm with hold | hnew
    · exact Nat.lt_succ_of_lt (hfreshV v hold)
    · simp only [List.mem_singleton] at hnew
      subst hnew
      exact Nat.lt_succ_self _
  · intro l hm
    rw [hlikes] at hm
    rw [hnext]
    exact Nat.lt_succ_of_lt (hfreshL l hm)
  · rw [hvids, List.map_append]
    refine List.Nodup.append hnodupV (by simp) ?_
    intro x hx1 hx2
    simp only [List.map_cons, List.map_nil, List.mem_singleton] at hx2
    obtain ⟨v0, hv0, hx⟩ := List.mem_map.mp hx1
    rw [hx2] at hx
    have := hfreshV v0 hv0
    rw [hx] at this
    exact lt_irrefl _ this

/-- Filtering both tables (video deletion with its like cascade, or clearing
the queue) preserves the invariant. -/
theorem Inv_filter_shape (db db' : DB) (p : Like → Bool) (q : Video → Bool)
    (hInv : Inv db)
    (hlikes : db'.likes = db.likes.filter p)
    (hvids : db'.videos = db.videos.filter q)
    (hnext : db'.next_video_id = db.next_video_id) :
    Inv db' := by
  obtain ⟨hdup, hself, hfreshV, hfreshL, hnodupV⟩ := hInv
  refine ⟨?_, ?_, ?_, ?_, ?_⟩
  · unfold NoDupLikePairs likePairs
    rw [hlikes]
    exact List.Nodup.sublist ((List.filter_sublist _).map _) hdup
  · intro l hm v hvm hid
    rw [hlikes] at hm
    rw [hvids] at hvm
    exact hself l (List.mem_of_mem_filter hm) v (List.mem_of_mem_filter hvm) hid
  · intro v hvm
    rw [hvids] at hvm
    rw [hnext]
    exact hfreshV v (List.mem_of_mem_filter hvm)
  · intro l hm
    rw [hlikes] at hm
    rw [hnext]
    exact hfreshL l (List.mem_of_mem_filter hm)
  · rw [hvids]
    exact List.Nodup.sublist ((List.filter_sublist _).map _) hnodupV

theorem adminAddPoints_tables (db : DB) (uid : Nat) (delta : Int) :
    (adminAddPoints db uid delta).likes = db.likes ∧
    (adminAddPoints db uid delta).videos = db.videos ∧
    (adminAddPoints db uid delta).next_video_id = db.next_video_id := by
  simp only [adminAddPoints]
  cases getUser (addPoints db uid delta) uid with
  | none => exact ⟨rfl, rfl, rfl⟩
  | some u0 =>
    simp only []
    by_cases hc : u0.points.fdiv ((addPoints db uid delta).settings.level_threshold : Int) + 1
        > u0.level
    · rw [if_pos hc]
      exact ⟨rfl, rfl, rfl⟩
    · rw [if_neg hc]
      exact ⟨rfl, rfl, rfl⟩

/-- Every operation of the system preserves the like-table invariant. -/
theorem step_Inv (a : List Nat) (db : DB) (op : Op) (h : Inv db) :
    Inv (step a db op) := by
  cases op with
  | opStart uid un now =>
    obtain ⟨h1, h2, h3⟩ := cmdStart_tables a db uid un now
    exact Inv_congr h1 h2 h3 h
  | opLike uid vid now =>
    simp only [step]
    obtain ⟨g1, g2, g3, _⟩ := checkSpam_tables a db uid "like" now
    have hg : Inv ((checkSpam a db uid "like" now).2) := Inv_congr g1 g2 g3 h
    by_cases hb : (checkSpam a db uid "like" now).1 = true
    · rw [if_pos hb]
      exact hg
    · rw [if_neg hb]
      rcases likeBody_tables ((checkSpam a db uid "like" now).2) uid vid now with
        ⟨t1, t2, t3⟩ | ⟨video, hv, ho, hl, t1, t2, t3⟩
      · exact Inv_congr (t1.trans g1) (t2.trans g2) (t3.trans g3) h
      · exact Inv_like_shape _ uid vid now video _ hg hv ho hl t1 t2 t3
  | opSubmit uid url urlOk now =>
    simp only [step]
    obtain ⟨g1, g2, g3, _⟩ := checkSpam_tables a db uid "submit" now
    have hg : Inv ((checkSpam a db uid "submit" now).2) := Inv_congr g1 g2 g3 h
    by_cases hb : (checkSpam a db uid "submit" now).1 = true
    · rw [if_pos hb]
      exact hg
    · rw [if_neg hb]
      rcases submitBody_tables ((checkSpam a db uid "submit" now).2) uid url urlOk now with
        ⟨t1, t2, t3⟩ | ⟨t1, t2, t3⟩
      · exact Inv_congr (t1.trans g1) (t2.trans g2) (t3.trans g3) h
      · exact Inv_submit_shape _ uid url now _ hg t1 t2 t3
  | opTouch uid cmd now =>
    simp only [step]
    obtain ⟨g1, g2, g3, _⟩ := checkSpam_tables a db uid cmd now
    have hg : Inv ((checkSpam a db uid cmd now).2) := Inv_congr g1 g2 g3 h
    by_cases hb : (checkSpam a db uid cmd now).1 = true
    · rw [if_pos hb]
      exact hg
    · rw [if_neg hb]
      exact Inv_congr g1 g2 g3 h
  | opDeleteVideo vid =>
    simp only [step]
    by_cases hv : (get_video db vid).isSome = true
    · rw [if_pos hv]
      exact Inv_filter_shape db _ _ _ h rfl rfl rfl
    · rw [if_neg hv]
      exact h
  | opClearQueue =>
    simp only [step]
    refine Inv_filter_shape db _ (fun _ => false) (fun _ => false) h ?_ ?_ rfl
    · show ([] : List Like) = db.likes.filter (fun _ => false)
      simp
    · show ([] : List Video) = db.videos.filter (fun _ => false)
      simp
  | opAddAdmin uid => exact Inv_congr rfl rfl rfl h
  | opResetLikes uid => exact Inv_congr rfl rfl rfl h
  | opAddPoints uid delta =>
    obtain ⟨h1, h2, h3⟩ := adminAddPoints_tables db uid delta
    exact Inv_congr h1 h2 h3 h
  | opSetLevel uid lvl =>
    simp only [step, adminSetLevel]
    by_cases hc : lvl < 1
    · rw [if_pos hc]
      exact h
    · rw [if_neg hc]
      exact Inv_congr rfl rfl rfl h
  | opBan uid now =>
    simp only [step]
    refine Inv_congr ?_ ?_ ?_ h <;> rfl
  | opSetLikesRequired n =>
    simp only [step, adminSetLikesRequired]
    by_cases hc : n < 0
    · rw [if_pos hc]
      exact h
    · rw [if_neg hc]
      exact Inv_congr rfl rfl rfl h
  | opSetPointsPerLike n =>
    simp only [step, adminSetPointsPerLike]
    by_cases hc : n < 0
    · rw [if_pos hc]
      exact h
    · rw [if_neg hc]
      exact Inv_congr rfl rfl rfl h
  | opSetPointsPerSubmission n =>
    simp only [step, adminSetPointsPerSubmission]
    by_cases hc : n < 0
    · rw [if_pos hc]
      exact h
    · rw [if_neg hc]
      exact Inv_congr rfl rfl rfl h
  | opSetLevelThreshold n =>
    simp only [step, adminSetLevelThreshold]
    by_cases hc : n < 1
    · rw [if_pos hc]
      exact h
    · rw [if_neg hc]
      exact Inv_congr rfl rfl rfl h
  | opSetSpamTimeout n =>
    simp only [step, adminSetSpamTimeout]
    by_cases hc : n < 0
    · rw [if_pos hc]
      exact h
    · rw [if_neg hc]
      exact Inv_congr rfl rfl rfl h

theorem applyOps_Inv_aux (a : List Nat) (ops : List Op) :
    ∀ db, Inv db → Inv (applyOps a db ops) := by
  induction ops with
  | nil => intro db h; exact h
  | cons op rest ih =>
    intro db h
    exact ih (step a db op) (step_Inv a db op h)

theorem applyOps_Inv (a : List Nat) (ops : List Op) :
    Inv (applyOps a initDB ops) :=
  applyOps_Inv_aux a ops initDB Inv_initDB

/-- C5: every invalid like attempt — missing video, own video, or an already
existing `(user, video)` Like — is rejected, leaving the Like table, the
videos (hence every `likes_count`) and every user's counters, points and
level untouched (only `last_action` is stamped); consequently, along every
operation sequence of the system from the initial store, no state ever holds
two Like rows with the same `(user, video)` pair or a Like row for a video
owned by the liking user. -/
theorem C5_like_integrity :
    (∀ db uid vid now, get_video db vid = none →
      likeBody db uid vid now
        = (LikeResult.notFound, update_user_last_action db uid now)) ∧
    (∀ db uid vid now video, get_video db vid = some video →
      video.user_id = uid →
      likeBody db uid vid now
        = (LikeResult.selfLike, update_user_last_action db uid now)) ∧
    (∀ db uid vid now video, get_video db vid = some video →
      video.user_id ≠ uid → has_liked_video db uid vid = true →
      likeBody db uid vid now
        = (LikeResult.alreadyLiked, update_user_last_action db uid now)) ∧
    (∀ db uid now,
      (update_user_last_action db uid now).likes = db.likes ∧
      (update_user_last_action db uid now).videos = db.videos ∧
      (∀ u w, getUser db u = some w →
        ∃ w', getUser (update_user_last_action db uid now) u = some w' ∧
          w'.likes_given = w.likes_given ∧
          w'.videos_submitted = w.videos_submitted ∧
          w'.points = w.points ∧ w'.level = w.level)) ∧
    (∀ adminIds ops, NoDupLikePairs (applyOps adminIds initDB ops) ∧
      NoSelfLike (applyOps adminIds initDB ops)) := by
  refine ⟨?_, ?_, ?_, ?_, ?_⟩
  · intro db uid vid now h
    simp [likeBody, update_user_last_action, h]
  · intro db uid vid now video hv heq
    simp [likeBody, update_user_last_action, hv, heq]
  · intro db uid vid now video hv hne hl
    have hbeq : (video.user_id == uid) = false := by simpa using hne
    simp [likeBody, update_user_last_action, hv, hbeq, hl]
  · intro db uid now
    refine ⟨rfl, rfl, ?_⟩
    intro u w hw
    unfold update_user_last_action
    rw [getUser_updateUser db uid
      (fun u : User => { u with last_action := now }) (fun x => rfl) u, hw]
    refine ⟨_, rfl, ?_, ?_, ?_, ?_⟩ <;> (simp only []; split <;> rfl)
  · intro adminIds ops
    obtain ⟨h1, h2, _⟩ := applyOps_Inv adminIds ops
    exact ⟨h1, h2⟩

/-- `demoDB` after Alice has liked Bob's first video. -/
def c5DB : DB := applyOps [] initDB (demoOps ++ [Op.opLike 1 1 100100])

/-- Bob's first video in `c5DB` (its `likes_count` was bumped by the like). -/
def video1L : Video :=
  { id := 1, user_id := 2, tiktok_url := "https://tiktok.com/v1",
    submission_time := 100010, status := "pending", likes_count := 1 }

theorem C5_witness :
    likeBody demoDB 1 99 300000
      = (LikeResult.notFound, update_user_last_action demoDB 1 300000) ∧
    likeBody demoDB 2 1 300000
      = (LikeResult.selfLike, update_user_last_action demoDB 2 300000) ∧
    likeBody c5DB 1 1 300000
      = (LikeResult.alreadyLiked, update_user_last_action c5DB 1 300000) ∧
    (∃ w', getUser (update_user_last_action demoDB 1 300000) 1 = some w' ∧
      w'.likes_given = aliceW.likes_given ∧
      w'.videos_submitted = aliceW.videos_submitted ∧
      w'.points = aliceW.points ∧ w'.level = aliceW.level) ∧
    (NoDupLikePairs (applyOps [] initDB (demoOps ++ [Op.opLike 1 1 100100])) ∧
      NoSelfLike (applyOps [] initDB (demoOps ++ [Op.opLike 1 1 100100]))) :=
  ⟨C5_like_integrity.1 demoDB 1 99 300000 (by decide),
   C5_like_integrity.2.1 demoDB 2 1 300000 video1W (by decide) (by decide),
   C5_like_integrity.2.2.1 c5DB 1 1 300000 video1L (by decide) (by decide) (by decide),
   (C5_like_integrity.2.2.2.1 demoDB 1 300000).2.2 1 aliceW (by decide),
   C5_like_integrity.2.2.2.2 [] (demoOps ++ [Op.opLike 1 1 100100])⟩

end TTB
